import Mathlib

/-!
# Verification of the NILA flask shop's order/return/notification core

Shallow embedding of the order-placement, return-request, identifier
generation and stock-notification logic of `app.py`, with theorems checking
the natural-language specification against it.

Conventions of the embedding:
* Firebase documents become association lists `List (String × α)` with
  first-match lookup (Firebase keys are unique; theorems that need it take a
  `Nodup` hypothesis on the keys).
* Randomness (`random.randint`, `random.choice`) becomes an explicit list of
  draws / an explicit parameter.
* `datetime` values become seconds since an epoch (`Int`); `timedelta`
  comparison of `datetime` subtraction is exact under this encoding.
* Machine side effects that the claims do not touch (SMTP handshakes, PDF
  bytes, logging) are dropped; emails are returned as data.
-/

/-- `str.replace(a, b)` for single-character `a`, `b`, as used throughout
`app.py` for email-key encoding/decoding. -/
def pyReplaceChar (s : String) (a b : Char) : String :=
  String.mk (s.data.map (fun c => if c = a then b else c))

/-- `user_email.replace('.', '_')` — the `safe_email_key` encoding
(`app.py` lines 899, 1031, 1071, 1103). -/
def encodeEmailKey (e : String) : String := pyReplaceChar e '.' '_'

/-- `safe_email_key.replace('_', '.')` — recovery of the recipient address in
`handle_stock_notifications` (`app.py` line 1059). -/
def decodeEmailKey (k : String) : String := pyReplaceChar k '_' '.'

/-- ASCII reading of the regex class `\w` (`[A-Za-z0-9_]`); Python's `\w` is
a Unicode superset, which agrees with this on ASCII input. -/
def isWordChar (c : Char) : Bool := c.isAlphanum || c = '_'

/-- The character class `[\w\.-]` of `validate_email`. -/
def isLocalChar (c : Char) : Bool := isWordChar c || c = '.' || c = '-'

/-- `validate_email` (`app.py` line 469): full match of
`[\w\.-]+@[\w\.-]+\.\w{2,}`.  Since `@` is in no class the regex forces
exactly one `@`; since `\w` excludes `.` the final `\.\w{2,}` group can only
match at the *last* dot of the domain, which is how the matcher below
decides the pattern. -/
def validate_email (email : String) : Bool :=
  let cs := email.data
  let localPart := cs.takeWhile (fun c => c ≠ '@')
  match cs.dropWhile (fun c => c ≠ '@') with
  | [] => false
  | _ :: domain =>
    match (domain.reverse.dropWhile (fun c => c ≠ '.')) with
    | [] => false
    | _ :: domRestRev =>
      let tldRev := domain.reverse.takeWhile (fun c => c ≠ '.')
      decide (localPart ≠ []) && localPart.all isLocalChar &&
      decide (domRestRev ≠ []) && domain.all isLocalChar &&
      decide (2 ≤ tldRev.length) && tldRev.all isWordChar

/-- The decimal digit character for `n < 10`, code point `48 + n`
(how Python renders each digit of `str(n)`). -/
def digitChar (n : Nat) : Char := Char.ofNat (48 + n)

/-- Little-endian decimal digit list of `n` (empty for `0`); the fuel
argument only drives structural recursion and any `fuel ≥ n` computes the
digits in full. -/
def natDigitsRev : Nat → Nat → List Char
  | 0, _ => []
  | _ + 1, 0 => []
  | fuel + 1, n + 1 => digitChar ((n + 1) % 10) :: natDigitsRev fuel ((n + 1) / 10)

/-- Python `str(n)` for a non-negative integer. -/
def natStr (n : Nat) : String :=
  if n = 0 then "0" else String.mk (natDigitsRev n n).reverse

/-- Python `s.zfill(width)`: left-pad with `'0'` to `width` characters. -/
def zfill (s : String) (width : Nat) : String :=
  if width ≤ s.length then s
  else String.mk (List.replicate (width - s.length) '0') ++ s

/-- `generate_unique_id(prefix, id_type)` (`app.py` lines 207–214).
The reservation index `existing_ids/{id_type}` is passed in as the list of
ids already present; the stream of `random.randint(0, 10**5 - 1)` draws is
passed in as `draws` (each draw is `< 100000` by `randint`'s contract), and
`none` models the unbounded retry loop never finding a free id.  The Python
body only *reads* the index (`id_ref.child(new_id).get()`); accordingly the
embedding returns the id alone and no updated index: the generator writes
nothing. -/
def generate_unique_id (pfx : String) (index : List String) (draws : List Nat) :
    Option String :=
  match draws with
  | [] => none
  | r :: rest =>
    let random_part := zfill (natStr r) 5
    let new_id := pfx ++ random_part
    if new_id ∈ index then generate_unique_id pfx index rest else some new_id

/-- The regex `^[A-Z]{3}\d{5}$` from the spec's identifier-format property. -/
def matchesIdPattern (s : String) : Bool :=
  decide (s.length = 8) &&
  (s.data.take 3).all (fun c => decide ('A' ≤ c) && decide (c ≤ 'Z')) &&
  (s.data.drop 3).all Char.isDigit

/-! ## Auxiliary lemmas: decimal rendering and padding -/

theorem natDigitsRev_length_le :
    ∀ fuel n k, n < 10 ^ k → (natDigitsRev fuel n).length ≤ k := by
  intro fuel
  induction fuel with
  | zero => intro n k _; simp [natDigitsRev]
  | succ f ih =>
    intro n k h
    match n with
    | 0 => simp [natDigitsRev]
    | m + 1 =>
      match k with
      | 0 => simp [pow_zero] at h
      | k' + 1 =>
        simp only [natDigitsRev, List.length_cons]
        have hdiv : (m + 1) / 10 < 10 ^ k' := by
          rw [Nat.div_lt_iff_lt_mul (by decide : (0:Nat) < 10)]
          calc m + 1 < 10 ^ (k' + 1) := h
            _ = 10 ^ k' * 10 := by rw [pow_succ]
        have := ih ((m + 1) / 10) k' hdiv
        omega

theorem digitChar_isDigit (m : Nat) (h : m < 10) : (digitChar m).isDigit = true := by
  interval_cases m <;> decide

theorem natDigitsRev_isDigit :
    ∀ fuel n c, c ∈ natDigitsRev fuel n → c.isDigit = true := by
  intro fuel
  induction fuel with
  | zero => intro n c hc; simp [natDigitsRev] at hc
  | succ f ih =>
    intro n c hc
    match n with
    | 0 => simp [natDigitsRev] at hc
    | m + 1 =>
      simp only [natDigitsRev, List.mem_cons] at hc
      rcases hc with rfl | hc
      · exact digitChar_isDigit _ (Nat.mod_lt _ (by decide))
      · exact ih _ _ hc

theorem natStr_length_le (n : Nat) (h : n < 100000) : (natStr n).length ≤ 5 := by
  unfold natStr
  by_cases h0 : n = 0
  · rw [if_pos h0]; decide
  · rw [if_neg h0]
    have : (natDigitsRev n n).length ≤ 5 := natDigitsRev_length_le n n 5 (by omega)
    simpa using this

theorem natStr_all_digits (n : Nat) : ∀ c ∈ (natStr n).data, c.isDigit = true := by
  unfold natStr
  by_cases h0 : n = 0
  · rw [if_pos h0]; decide
  · rw [if_neg h0]
    intro c hc
    have : c ∈ natDigitsRev n n := by
      have := List.mem_reverse.mp (by simpa using hc)
      exact this
    exact natDigitsRev_isDigit n n c this

theorem zfill_length (s : String) (w : Nat) (h : s.length ≤ w) :
    (zfill s w).length = w := by
  unfold zfill
  by_cases hw : w ≤ s.length
  · rw [if_pos hw]; omega
  · rw [if_neg hw]
    rw [String.length_append]
    simp only [String.length]
    simp [List.length_replicate]
    omega

theorem zfill_all_digits (s : String) (w : Nat)
    (h : ∀ c ∈ s.data, c.isDigit = true) :
    ∀ c ∈ (zfill s w).data, c.isDigit = true := by
  unfold zfill
  by_cases hw : w ≤ s.length
  · rw [if_pos hw]; exact h
  · rw [if_neg hw]
    intro c hc
    simp only [String.data_append, List.mem_append] at hc
    rcases hc with hc | hc
    · have : c = '0' := by
        have := List.eq_of_mem_replicate (by simpa using hc)
        exact this
      subst this; decide
    · exact h c hc

/-- C5: every id returned by `generate_unique_id` is the prefix followed by a
5-digit zero-padded decimal, is absent from the reservation index at
generation time, and (for the 3-letter uppercase prefixes used) matches
`^[A-Z]{3}\d{5}$`; the generator itself performs no write (its embedding
returns no updated state, mirroring the read-only Python body). -/
theorem generate_unique_id_spec (pfx : String) (index : List String)
    (draws : List Nat) (id : String)
    (hdraws : ∀ r ∈ draws, r < 100000)
    (hpfx : pfx.length = 3)
    (hupper : ∀ c ∈ pfx.data, 'A' ≤ c ∧ c ≤ 'Z')
    (hgen : generate_unique_id pfx index draws = some id) :
    id ∉ index ∧
    (∃ part, id = pfx ++ part ∧ part.length = 5 ∧
      ∀ c ∈ part.data, c.isDigit = true) ∧
    matchesIdPattern id = true := by
  induction draws with
  | nil => simp [generate_unique_id] at hgen
  | cons r rest ih =>
    simp only [generate_unique_id] at hgen
    by_cases hmem : pfx ++ zfill (natStr r) 5 ∈ index
    · rw [if_pos hmem] at hgen
      exact ih (fun x hx => hdraws x (List.mem_cons_of_mem _ hx)) hgen
    · rw [if_neg hmem] at hgen
      have hid : pfx ++ zfill (natStr r) 5 = id := by
        injection hgen
      subst hid
      have hr : r < 100000 := hdraws r (List.mem_cons_self r rest)
      have hlen : (zfill (natStr r) 5).length = 5 :=
        zfill_length _ _ (natStr_length_le r hr)
      have hdig : ∀ c ∈ (zfill (natStr r) 5).data, c.isDigit = true :=
        zfill_all_digits _ _ (natStr_all_digits r)
      refine ⟨hmem, ⟨zfill (natStr r) 5, rfl, hlen, hdig⟩, ?_⟩
      have htotal : (pfx ++ zfill (natStr r) 5).length = 8 := by
        rw [String.length_append, hpfx, hlen]
      have hdata : (pfx ++ zfill (natStr r) 5).data =
          pfx.data ++ (zfill (natStr r) 5).data := String.data_append _ _
      have hpfxdata : pfx.data.length = 3 := hpfx
      unfold matchesIdPattern
      rw [htotal, hdata]
      have htake : (pfx.data ++ (zfill (natStr r) 5).data).take 3 = pfx.data := by
        rw [← hpfxdata]; exact List.take_left _ _
      have hdrop : (pfx.data ++ (zfill (natStr r) 5).data).drop 3 =
          (zfill (natStr r) 5).data := by
        rw [← hpfxdata]; exact List.drop_left _ _
      rw [htake, hdrop]
      simp only [decide_eq_true_eq, Bool.and_eq_true, List.all_eq_true]
      refine ⟨⟨trivial, ?_⟩, ?_⟩
      · intro c hc
        have := hupper c hc
        simp [this.1, this.2]
      · intro c hc
        exact hdig c hc

/-- C5 witness: a concrete run of the generator. -/
theorem generate_unique_id_spec_witness :
    "ORD00043" ∉ ["ORD00042", "ORD00017"] ∧
    (∃ part, "ORD00043" = "ORD" ++ part ∧ part.length = 5 ∧
      ∀ c ∈ part.data, c.isDigit = true) ∧
    matchesIdPattern "ORD00043" = true :=
  generate_unique_id_spec "ORD" ["ORD00042", "ORD00017"] [42, 43] "ORD00043"
    (by decide) (by decide) (by decide) (by decide)

/-! ## C10: email-key encode/decode round-trip -/

/-- C10 counterexample: `validate_email` accepts addresses containing an
underscore (the regex class `\w` contains `_`), and on such an address the
store/recover round-trip `'.'→'_'` then `'_'→'.'` does not return the
original address. -/
theorem emailKey_roundtrip_counterexample :
    validate_email "a_b@x.co" = true ∧
    decodeEmailKey (encodeEmailKey "a_b@x.co") ≠ "a_b@x.co" := by decide

/-- C10 amended: for every address accepted by `validate_email` that
contains no underscore, encoding the user key by `'.'→'_'` and decoding it
by `'_'→'.'` round-trips to the original address. -/
theorem emailKey_roundtrip_no_underscore (e : String)
    (hv : validate_email e = true) (hu : ∀ c ∈ e.data, c ≠ '_') :
    decodeEmailKey (encodeEmailKey e) = e := by
  unfold decodeEmailKey encodeEmailKey pyReplaceChar
  cases e with
  | mk l =>
    show String.mk (l.map (fun c => if c = '.' then '_' else c) |>.map
      (fun c => if c = '_' then '.' else c)) = String.mk l
    rw [List.map_map]
    have : l.map ((fun c => if c = '_' then '.' else c) ∘
        (fun c => if c = '.' then '_' else c)) = l := by
      conv_rhs => rw [← List.map_id l]
      refine List.map_congr_left ?_
      intro c hc
      have hne : c ≠ '_' := hu c hc
      by_cases hdot : c = '.'
      · subst hdot; simp
      · simp [Function.comp, if_neg hdot, if_neg hne]
    rw [this]

/-- C10 amended witness: a concrete dot-bearing address round-trips. -/
theorem emailKey_roundtrip_no_underscore_witness :
    decodeEmailKey (encodeEmailKey "alice@example.com") = "alice@example.com" :=
  emailKey_roundtrip_no_underscore "alice@example.com" (by decide) (by decide)

/-! ## Data model for order placement (`app.py` §3, `place_order` lines 887–1013)

Firebase dictionaries become association lists with Python-dict semantics:
`dictGet` is key lookup, `dictSet` overwrites an existing key in place or
appends a fresh one (insertion order preserved, as in Python/Firebase). -/

def dictGet {α : Type} : List (String × α) → String → Option α
  | [], _ => none
  | (k, v) :: rest, key => if k = key then some v else dictGet rest key

def dictSet {α : Type} : List (String × α) → String → α → List (String × α)
  | [], key, v => [(key, v)]
  | (k, w) :: rest, key, v =>
    if k = key then (k, v) :: rest else (k, w) :: dictSet rest key v

/-- A stored cart line `{id, name, quantity, ...}`; the fields `place_order`
reads.  Quantities come from client JSON, hence `Int`. -/
structure CartItem where
  id : String
  name : String
  quantity : Int
  deriving DecidableEq

/-- A catalog entry under `stockitems/{productId}`.  `availableStock` and
`description` are `Option` because `place_order` reads them with
`.get('availableStock', 0)` / `.get('description', 'N/A')`; the other fields
are indexed directly (`product_in_db['price']` etc.). -/
structure Product where
  name : String
  price : Int
  availableStock : Option Int
  image : String
  description : Option String
  deriving DecidableEq

/-- A shipping address record; `request_return` reads only its `phone` field
(via `.get('phone', '')`), the rest is snapshotted opaquely. -/
structure Address where
  phone : Option String
  rest : String
  deriving DecidableEq

/-- An order line item as snapshotted by `place_order` (lines 966–969). -/
structure OrderItem where
  id : String
  name : String
  price : Int
  quantity : Int
  image : String
  description : String
  deriving DecidableEq

/-- Return metadata written by `request_return` (lines 1145–1149);
`requestedAt` is a server-side timestamp placeholder and is not modelled. -/
structure ReturnDetails where
  reason : String
  videoUrl : String
  pickupAddress : Address
  pickupContact : String
  deriving DecidableEq

/-- An order document under `order_details/order_history/{orderId}`;
`orderDate` is the server-timestamp sentinel `{'.sv': 'timestamp'}` and is
not modelled. -/
structure Order where
  orderId : String
  invoiceId : String
  status : String
  items : List OrderItem
  shippingAddress : Address
  totalAmount : Int
  deliveryDate : Option String
  returnInvoiceId : Option String
  returnDetails : Option ReturnDetails
  deriving DecidableEq

/-- The slice of a `users/{emailKey}` document that the order/return flow
touches.  `name` and `orders` are `Option` because the code reads them with
`.get('name', …)` / `.get('orders', 0)`. -/
structure User where
  name : Option String
  cart_items : List CartItem
  orders : Option Int
  shipping_addresses : List (String × Address)
  order_history : List (String × Order)
  deriving DecidableEq

/-- The database tree: `users/`, `stockitems/`, the `existing_ids/{category}`
reservation indexes, and the `stock_notifications/` waitlist
(product id ↦ set of user keys). -/
structure DBState where
  users : List (String × User)
  stockitems : List (String × Product)
  order_ids : List String
  invoice_ids : List String
  return_ids : List String
  stock_notifications : List (String × List String)
  deriving DecidableEq

/-! ## Cart validation (`place_order` lines 920–945) -/

/-- Adjustment message for a product id absent from the catalog
(line 929; the source reads the name with `.get('name', 'An item')`,
modelled here with the name field always present). -/
def unavailableMsg (it : CartItem) : String :=
  s!"'{it.name}' was removed as it is no longer available."

/-- Adjustment message for zero/negative stock (line 936). -/
def outOfStockMsg (it : CartItem) : String :=
  s!"'{it.name}' was removed as it is now out of stock."

/-- Adjustment message for a clamped quantity (line 941). -/
def reducedMsg (it : CartItem) (stock : Int) : String :=
  s!"Quantity for '{it.name}' reduced to {stock} due to low stock."

/-- The validation loop of `place_order` (lines 920–945): returns
`(validated_cart, adjustments_made, cart_was_modified)`.  The recursion
processes lines in original order; contributions of the head line are
prepended to those of the tail exactly as the Python loop appends them. -/
def validateCart (catalog : List (String × Product)) :
    List CartItem → List CartItem × List String × Bool
  | [] => ([], [], false)
  | item :: rest =>
    let r := validateCart catalog rest
    match dictGet catalog item.id with
    | none => (r.1, unavailableMsg item :: r.2.1, true)
    | some p =>
      let current_stock := p.availableStock.getD 0
      if current_stock ≤ 0 then
        (r.1, outOfStockMsg item :: r.2.1, true)
      else if item.quantity > current_stock then
        ({ item with quantity := current_stock } :: r.1,
         reducedMsg item current_stock :: r.2.1, true)
      else
        (item :: r.1, r.2.1, r.2.2)

/-- Spec-side formalisation of §4.2's per-line rule, written from the
claim's words for comparison with `validateCart`: returns the kept line (if
any) and the adjustment message (if any) for one cart line. -/
def lineRuleSpec (catalog : List (String × Product)) (item : CartItem) :
    Option CartItem × Option String :=
  match dictGet catalog item.id with
  | none => (none, some (unavailableMsg item))
  | some p =>
    if p.availableStock.getD 0 ≤ 0 then
      (none, some (outOfStockMsg item))
    else if item.quantity > p.availableStock.getD 0 then
      (some { item with quantity := p.availableStock.getD 0 },
       some (reducedMsg item (p.availableStock.getD 0)))
    else
      (some item, none)

/-! ## Order commit (`place_order` lines 947–1013) -/

/-- The JSON responses `place_order` can produce (the 401/missing-address
guards happen before any state is read and are outside the modelled body). -/
inductive POResponse where
  | userNotFound
  | emptyCart
  | invalidAddress
  | catalogUnavailable
  | cartChanged (error : String) (updated_cart : List CartItem)
  | allOutOfStock
  | unexpectedError
  | orderPlaced (orderId : String) (invoiceId : String)
  deriving DecidableEq

/-- The HTTP status attached to each `place_order` response. -/
def poStatus : POResponse → Nat
  | .userNotFound => 404
  | .emptyCart => 400
  | .invalidAddress => 400
  | .catalogUnavailable => 500
  | .cartChanged _ _ => 409
  | .allOutOfStock => 400
  | .unexpectedError => 500
  | .orderPlaced _ _ => 200

/-- Accumulators of the commit loop (lines 957–970): `total_price`,
`order_items_details` and the `stock_updates` dict (keyed by product id; the
Python key is the path `'{product_id}/availableStock'`). -/
structure CommitAcc where
  total_price : Int
  order_items_details : List OrderItem
  stock_updates : List (String × Int)

/-- The commit loop of `place_order` (lines 961–970).  `none` models the
uncaught `TypeError`/`KeyError` a vanished product or missing
`availableStock` field would raise (caught by the outer handler as a
generic 500); on the clean-validation path this never happens. -/
def commitFold (catalog : List (String × Product)) :
    List CartItem → CommitAcc → Option CommitAcc
  | [], acc => some acc
  | item :: rest, acc =>
    match dictGet catalog item.id with
    | none => none
    | some p =>
      match p.availableStock with
      | none => none
      | some s =>
        commitFold catalog rest
          { total_price := acc.total_price + p.price * item.quantity
            order_items_details := acc.order_items_details ++
              [{ id := item.id, name := p.name, price := p.price,
                 quantity := item.quantity, image := p.image,
                 description := p.description.getD "N/A" }]
            stock_updates := dictSet acc.stock_updates item.id (s - item.quantity) }

/-- `stock_ref.update(stock_updates)` (line 997): writes each
`{product_id}/availableStock` child.  A path whose product id is absent from
the catalog would create a fresh partial node; the clean path never produces
such a path and the embedding leaves the catalog unchanged there. -/
def setStock : List (String × Product) → String → Int → List (String × Product)
  | [], _, _ => []
  | (k, p) :: rest, pid, s =>
    if k = pid then (k, { p with availableStock := some s }) :: rest
    else (k, p) :: setStock rest pid s

def applyStockUpdates (catalog : List (String × Product)) :
    List (String × Int) → List (String × Product)
  | [] => catalog
  | (pid, s) :: rest => applyStockUpdates (setStock catalog pid s) rest

/-- `place_order` (lines 887–1013), from the point where the session and the
`address_id` field have been checked.  Inputs beyond the database state:
the session email, the selected address id, the two `random.randint` draw
streams feeding `generate_unique_id('ORD'/'INV', …)`, the
`random.choice(["Shipped", "Out for Delivery", "Delivered"])` outcome, and
`datetime.now().strftime('%d-%b-%Y')`.  The result is `none` only when a
modelled draw stream is exhausted (the Python retry loop spinning forever);
otherwise it is the JSON response paired with the database state after the
multi-path update (line 996) and the stock update (line 997).  The
post-commit confirmation email is fire-and-forget and not modelled. -/
def place_order (st : DBState) (user_email : String)
    (selected_address_id : String) (ordDraws invDraws : List Nat)
    (order_status : String) (nowDateStr : String) :
    Option (POResponse × DBState) :=
  let safe_email_key := encodeEmailKey user_email
  match dictGet st.users safe_email_key with
  | none => some (.userNotFound, st)
  | some user_data =>
    if user_data.cart_items = [] then some (.emptyCart, st)
    else
      match dictGet user_data.shipping_addresses selected_address_id with
      | none => some (.invalidAddress, st)
      | some shipping_address =>
        if st.stockitems = [] then some (.catalogUnavailable, st)
        else
          let r := validateCart st.stockitems user_data.cart_items
          if r.2.2 then
            let adjusted_user : User := { user_data with cart_items := r.1 }
            some (.cartChanged
              ("Your cart has been updated due to stock changes. Please review and proceed. "
                ++ String.intercalate " " r.2.1) r.1,
              { st with users := dictSet st.users safe_email_key adjusted_user })
          else
            match commitFold st.stockitems r.1 ⟨0, [], []⟩ with
            | none => some (.unexpectedError, st)
            | some acc =>
              if acc.order_items_details = [] then some (.allOutOfStock, st)
              else
                match generate_unique_id "ORD" st.order_ids ordDraws with
                | none => none
                | some order_id =>
                  match generate_unique_id "INV" st.invoice_ids invDraws with
                  | none => none
                  | some invoice_id =>
                    let order_data : Order :=
                      { orderId := order_id, invoiceId := invoice_id,
                        status := order_status,
                        items := acc.order_items_details,
                        shippingAddress := shipping_address,
                        totalAmount := acc.total_price,
                        deliveryDate :=
                          if order_status = "Delivered" then some nowDateStr else none,
                        returnInvoiceId := none, returnDetails := none }
                    let user' : User :=
                      { user_data with
                        order_history :=
                          dictSet user_data.order_history order_id order_data,
                        cart_items := [],
                        orders := some (user_data.orders.getD 0 + 1) }
                    some (.orderPlaced order_id invoice_id,
                      { st with
                        users := dictSet st.users safe_email_key user',
                        order_ids := st.order_ids ++ [order_id],
                        invoice_ids := st.invoice_ids ++ [invoice_id],
                        stockitems :=
                          applyStockUpdates st.stockitems acc.stock_updates })


theorem dictGet_dictSet_self {α : Type} (l : List (String × α)) (key : String) (v : α) :
    dictGet (dictSet l key v) key = some v := by
  induction l with
  | nil => simp [dictGet, dictSet]
  | cons hd tl ih =>
    obtain ⟨k, w⟩ := hd
    by_cases hk : k = key
    · simp [dictSet, dictGet, hk]
    · simp [dictSet, dictGet, hk, ih]

theorem dictGet_dictSet_ne {α : Type} (l : List (String × α)) (key : String) (v : α)
    (k : String) (h : k ≠ key) :
    dictGet (dictSet l key v) k = dictGet l k := by
  induction l with
  | nil => simp [dictGet, dictSet, Ne.symm h]
  | cons hd tl ih =>
    obtain ⟨k', w⟩ := hd
    by_cases hk : k' = key
    · subst hk
      simp [dictGet, dictSet, Ne.symm h]
    · simp [dictGet, dictSet, hk, ih]

/-- The one-step equation of `validateCart`: the head line's contribution,
as described by `lineRuleSpec`, is prepended to the validation of the tail. -/
theorem validateCart_cons_eq (catalog : List (String × Product))
    (item : CartItem) (rest : List CartItem) :
    validateCart catalog (item :: rest) =
      ((lineRuleSpec catalog item).1.toList ++ (validateCart catalog rest).1,
       (lineRuleSpec catalog item).2.toList ++ (validateCart catalog rest).2.1,
       (validateCart catalog rest).2.2 || (lineRuleSpec catalog item).2.isSome) := by
  simp only [validateCart, lineRuleSpec]
  cases hb : dictGet catalog item.id with
  | none => simp
  | some p =>
    by_cases h1 : p.availableStock.getD 0 ≤ 0
    · simp [h1]
    · by_cases h2 : item.quantity > p.availableStock.getD 0
      · simp [h1, h2]
      · simp [h1, h2]

/-- A line that produces no adjustment message is kept unchanged and its
product is live with positive stock at least the requested quantity. -/
theorem lineRuleSpec_kept (catalog : List (String × Product)) (item : CartItem)
    (h : (lineRuleSpec catalog item).2.isSome = false) :
    (lineRuleSpec catalog item).1 = some item ∧
    ∃ p s, dictGet catalog item.id = some p ∧ p.availableStock = some s ∧
      0 < s ∧ item.quantity ≤ s := by
  unfold lineRuleSpec at h ⊢
  cases hb : dictGet catalog item.id with
  | none => rw [hb] at h; simp at h
  | some p =>
    rw [hb] at h
    by_cases h1 : p.availableStock.getD 0 ≤ 0
    · simp [h1] at h
    · by_cases h2 : item.quantity > p.availableStock.getD 0
      · simp [h1, h2] at h
      · refine ⟨by simp [h1, h2], ?_⟩
        cases hos : p.availableStock with
        | none => rw [hos] at h1; simp at h1
        | some s =>
          rw [hos] at h1 h2
          simp only [Option.getD_some] at h1 h2
          exact ⟨p, s, rfl, hos, by omega, by omega⟩

/-- On a clean validation pass the cart is returned unchanged, no
adjustment message is produced, and every line's product is live with
positive stock covering the requested quantity. -/
theorem validateCart_clean (catalog : List (String × Product)) :
    ∀ items, (validateCart catalog items).2.2 = false →
      (validateCart catalog items).1 = items ∧
      (validateCart catalog items).2.1 = [] ∧
      ∀ it ∈ items, ∃ p s, dictGet catalog it.id = some p ∧
        p.availableStock = some s ∧ 0 < s ∧ it.quantity ≤ s := by
  intro items
  induction items with
  | nil => intro _; simp [validateCart]
  | cons item rest ih =>
    intro h
    rw [validateCart_cons_eq] at h ⊢
    have hsplit : (validateCart catalog rest).2.2 = false ∧
        (lineRuleSpec catalog item).2.isSome = false := by
      simpa using h
    obtain ⟨hrest, hline⟩ := hsplit
    obtain ⟨hv, hmsg, hall⟩ := ih hrest
    obtain ⟨hkept, p, s, hb, hos, hpos, hle⟩ := lineRuleSpec_kept catalog item hline
    have hnone : (lineRuleSpec catalog item).2 = none :=
      Option.not_isSome_iff_eq_none.mp (by simp [hline])
    refine ⟨?_, ?_, ?_⟩
    · rw [hkept, hv]; rfl
    · rw [hnone, hmsg]; rfl
    · intro it hit
      rcases List.mem_cons.mp hit with rfl | hit
      · exact ⟨p, s, hb, hos, hpos, hle⟩
      · exact hall it hit

/-- C1: cart validation processes each stored cart line in original order
and treats every line exactly as §4.2 prescribes — product id absent from
the live catalog: line dropped with the "no longer available" message;
`availableStock <= 0`: dropped with the "out of stock" message; requested
quantity above `availableStock`: quantity clamped to `availableStock` with
the "reduced" message; otherwise the line is kept unchanged.  The head
line's contribution (`lineRuleSpec`, written from the spec's per-line rule)
is prepended to the validation of the remaining lines, and the modified
flag is set exactly when some line was dropped or clamped. -/
theorem validateCart_per_line (catalog : List (String × Product))
    (item : CartItem) (rest : List CartItem) :
    validateCart catalog (item :: rest) =
      ((lineRuleSpec catalog item).1.toList ++ (validateCart catalog rest).1,
       (lineRuleSpec catalog item).2.toList ++ (validateCart catalog rest).2.1,
       (validateCart catalog rest).2.2 || (lineRuleSpec catalog item).2.isSome) :=
  validateCart_cons_eq catalog item rest

/-- Spec-side total: the sum over cart lines of live catalog price times
quantity (§4.3's "computes total price … from the live catalog values"). -/
def liveTotalSpec (catalog : List (String × Product)) (items : List CartItem) : Int :=
  (items.map (fun it => ((dictGet catalog it.id).map Product.price).getD 0 * it.quantity)).sum

/-- Spec-side snapshot list: one line item per cart line, copying the live
product's name, price, image and description at validation time. -/
def snapshotSpec (catalog : List (String × Product)) (items : List CartItem) :
    List OrderItem :=
  items.filterMap (fun it => (dictGet catalog it.id).map (fun p =>
    { id := it.id, name := p.name, price := p.price, quantity := it.quantity,
      image := p.image, description := p.description.getD "N/A" }))

/-- The commit loop succeeds on any cart whose lines all have a live product
with a present `availableStock` field, and accumulates exactly the
spec-side total and snapshot list. -/
theorem commitFold_char (catalog : List (String × Product)) :
    ∀ (items : List CartItem) (acc : CommitAcc),
      (∀ it ∈ items, ∃ p s, dictGet catalog it.id = some p ∧
        p.availableStock = some s) →
      ∃ acc', commitFold catalog items acc = some acc' ∧
        acc'.total_price = acc.total_price + liveTotalSpec catalog items ∧
        acc'.order_items_details =
          acc.order_items_details ++ snapshotSpec catalog items := by
  intro items
  induction items with
  | nil =>
    intro acc _
    exact ⟨acc, rfl, by simp [liveTotalSpec], by simp [snapshotSpec]⟩
  | cons item rest ih =>
    intro acc hall
    obtain ⟨p, s, hb, hos⟩ := hall item (List.mem_cons_self item rest)
    have hrest : ∀ it ∈ rest, ∃ p s, dictGet catalog it.id = some p ∧
        p.availableStock = some s :=
      fun it hit => hall it (List.mem_cons_of_mem _ hit)
    obtain ⟨acc', heq, htot, hitems⟩ := ih
      { total_price := acc.total_price + p.price * item.quantity,
        order_items_details := acc.order_items_details ++
          [{ id := item.id, name := p.name, price := p.price,
             quantity := item.quantity, image := p.image,
             description := p.description.getD "N/A" }],
        stock_updates := dictSet acc.stock_updates item.id (s - item.quantity) }
      hrest
    refine ⟨acc', ?_, ?_, ?_⟩
    · simp only [commitFold, hb, hos]
      exact heq
    · rw [htot]
      unfold liveTotalSpec
      simp only [List.map_cons, List.sum_cons, hb, Option.map_some, Option.map_some',
        Option.getD_some]
      ring
    · rw [hitems]
      unfold snapshotSpec
      simp only [List.filterMap_cons, hb, Option.map_some]
      simp [List.append_assoc]

/-- The state written on the 409 path: the user's stored cart replaced by
the validated cart (line 948), everything else untouched. -/
def withUserCart (st : DBState) (key : String) (u : User)
    (cart : List CartItem) : DBState :=
  { st with users := dictSet st.users key { u with cart_items := cart } }

/-- C2: for a logged-in user with a non-empty cart (and a valid address and
a readable catalog), if validation drops or clamps at least one line then
`place_order` persists the adjusted cart under the user, answers 409 with
the validated cart and the concatenated adjustment summary, and leaves
every order history, the id indexes and the catalog untouched; and only a
validation pass with no drops and no clamps proceeds to commit an order
(reaching either the success response or the modelled id-generator
divergence). -/
theorem place_order_cart_conflict
    (st : DBState) (user_email selected_address_id : String)
    (ordDraws invDraws : List Nat) (order_status nowDateStr : String)
    (user_data : User) (shipping_address : Address)
    (hu : dictGet st.users (encodeEmailKey user_email) = some user_data)
    (hc : user_data.cart_items ≠ [])
    (ha : dictGet user_data.shipping_addresses selected_address_id = some shipping_address)
    (hcat : st.stockitems ≠ []) :
    ((validateCart st.stockitems user_data.cart_items).2.2 = true →
      place_order st user_email selected_address_id ordDraws invDraws
          order_status nowDateStr =
        some (.cartChanged
          ("Your cart has been updated due to stock changes. Please review and proceed. "
            ++ String.intercalate " "
                (validateCart st.stockitems user_data.cart_items).2.1)
          (validateCart st.stockitems user_data.cart_items).1,
          withUserCart st (encodeEmailKey user_email) user_data
            (validateCart st.stockitems user_data.cart_items).1) ∧
      (∀ e c, poStatus (.cartChanged e c) = 409) ∧
      (∀ k u', dictGet (withUserCart st (encodeEmailKey user_email) user_data
          (validateCart st.stockitems user_data.cart_items).1).users k =
            some u' →
        ∃ u0, dictGet st.users k = some u0 ∧ u'.order_history = u0.order_history)) ∧
    ((validateCart st.stockitems user_data.cart_items).2.2 = false →
      place_order st user_email selected_address_id ordDraws invDraws
          order_status nowDateStr = none ∨
      ∃ oid iid st', place_order st user_email selected_address_id ordDraws invDraws
          order_status nowDateStr = some (.orderPlaced oid iid, st')) := by
  constructor
  · intro hmod
    refine ⟨?_, fun e c => rfl, ?_⟩
    · simp only [place_order, hu, ha, if_neg hc, if_neg hcat, hmod, if_true,
        withUserCart]
    · intro k u' hk
      simp only [withUserCart] at hk
      by_cases hkey : k = encodeEmailKey user_email
      · subst hkey
        rw [dictGet_dictSet_self] at hk
        have : u' = { user_data with
            cart_items := (validateCart st.stockitems user_data.cart_items).1 } := by
          injection hk.symm
        subst this
        exact ⟨user_data, hu, rfl⟩
      · rw [dictGet_dictSet_ne _ _ _ _ hkey] at hk
        exact ⟨u', hk, rfl⟩
  · intro hclean
    obtain ⟨hv, hmsg, hall⟩ := validateCart_clean st.stockitems user_data.cart_items hclean
    obtain ⟨acc, hacc, htot, hitems⟩ :=
      commitFold_char st.stockitems user_data.cart_items ⟨0, [], []⟩
        (fun it hit => by
          obtain ⟨p, s, hb, hos, _, _⟩ := hall it hit
          exact ⟨p, s, hb, hos⟩)
    have hne : acc.order_items_details ≠ [] := by
      rw [hitems]
      match hcc : user_data.cart_items with
      | [] => exact absurd hcc hc
      | it0 :: rest =>
        obtain ⟨p, s, hb, _, _, _⟩ := hall it0 (by rw [hcc]; exact List.mem_cons_self _ _)
        simp [snapshotSpec, List.filterMap_cons, hb]
    cases hgo : generate_unique_id "ORD" st.order_ids ordDraws with
    | none =>
      left
      simp [place_order, hu, ha, hc, hcat, hclean, hv, hacc, hne, hgo]
    | some oid =>
      cases hgi : generate_unique_id "INV" st.invoice_ids invDraws with
      | none =>
        left
        simp [place_order, hu, ha, hc, hcat, hclean, hv, hacc, hne, hgo, hgi]
      | some iid =>
        right
        simp only [place_order, hu, ha, if_neg hc, if_neg hcat, hclean, hv, hacc,
          if_neg hne, hgo, hgi]
        simp only [Bool.false_eq_true, if_false, ite_false]
        exact ⟨oid, iid, _, rfl⟩

/-- C3: after a clean validation pass, `place_order`'s single multi-path
update writes the order into the user's order history under the new order
id, empties the user's cart, increments the user's order counter by exactly
one, and reserves both fresh ids in the identifier indexes; the committed
order's `totalAmount` is the sum over cart lines of live catalog price
times quantity, and its line items snapshot the live product's name, price,
image and description. -/
theorem place_order_commit
    (st : DBState) (user_email selected_address_id : String)
    (ordDraws invDraws : List Nat) (order_status nowDateStr : String)
    (user_data : User) (shipping_address : Address) (oid iid : String)
    (hu : dictGet st.users (encodeEmailKey user_email) = some user_data)
    (hc : user_data.cart_items ≠ [])
    (ha : dictGet user_data.shipping_addresses selected_address_id = some shipping_address)
    (hcat : st.stockitems ≠ [])
    (hclean : (validateCart st.stockitems user_data.cart_items).2.2 = false)
    (hgo : generate_unique_id "ORD" st.order_ids ordDraws = some oid)
    (hgi : generate_unique_id "INV" st.invoice_ids invDraws = some iid) :
    ∃ st' u' order,
      place_order st user_email selected_address_id ordDraws invDraws
          order_status nowDateStr = some (.orderPlaced oid iid, st') ∧
      dictGet st'.users (encodeEmailKey user_email) = some u' ∧
      dictGet u'.order_history oid = some order ∧
      (∀ k, k ≠ oid → dictGet u'.order_history k = dictGet user_data.order_history k) ∧
      u'.cart_items = [] ∧
      u'.orders = some (user_data.orders.getD 0 + 1) ∧
      st'.order_ids = st.order_ids ++ [oid] ∧ oid ∈ st'.order_ids ∧
      st'.invoice_ids = st.invoice_ids ++ [iid] ∧ iid ∈ st'.invoice_ids ∧
      order.orderId = oid ∧ order.invoiceId = iid ∧
      order.totalAmount = liveTotalSpec st.stockitems user_data.cart_items ∧
      order.items = snapshotSpec st.stockitems user_data.cart_items := by
  obtain ⟨hv, hmsg, hall⟩ := validateCart_clean st.stockitems user_data.cart_items hclean
  obtain ⟨acc, hacc, htot, hitems⟩ :=
    commitFold_char st.stockitems user_data.cart_items ⟨0, [], []⟩
      (fun it hit => by
        obtain ⟨p, s, hb, hos, _, _⟩ := hall it hit
        exact ⟨p, s, hb, hos⟩)
  have hne : acc.order_items_details ≠ [] := by
    rw [hitems]
    match hcc : user_data.cart_items with
    | [] => exact absurd hcc hc
    | it0 :: rest =>
      obtain ⟨p, s, hb, _, _, _⟩ := hall it0 (by rw [hcc]; exact List.mem_cons_self _ _)
      simp [snapshotSpec, List.filterMap_cons, hb]
  simp only [place_order, hu, ha, if_neg hc, if_neg hcat, hclean, hv, hacc,
    if_neg hne, hgo, hgi]
  simp only [Bool.false_eq_true, if_false, ite_false]
  refine ⟨_, _, _, rfl, dictGet_dictSet_self _ _ _, dictGet_dictSet_self _ _ _,
    ?_, rfl, rfl, rfl, ?_, rfl, ?_, rfl, rfl, ?_, ?_⟩
  · intro k hk
    exact dictGet_dictSet_ne _ _ _ _ hk
  · exact List.mem_append_right _ (List.mem_singleton_self _)
  · exact List.mem_append_right _ (List.mem_singleton_self _)
  · rw [htot]; simp
  · rw [hitems]; simp

/-! ## Concrete fixtures used by witnesses -/

/-- Catalog entry mirroring the spec scenario's `item002` (stock 25, price 1299). -/
def exWidget : Product :=
  { name := "Widget", price := 1299, availableStock := some 25,
    image := "img1", description := some "A widget" }

/-- An out-of-stock catalog entry. -/
def exLamp : Product :=
  { name := "Lamp", price := 500, availableStock := some 0,
    image := "img2", description := none }

def exAddr : Address := { phone := some "9876543210", rest := "12 Main St" }

def exCartClean : List CartItem := [{ id := "item002", name := "Widget", quantity := 2 }]

def exCartOOS : List CartItem :=
  [{ id := "item002", name := "Widget", quantity := 2 },
   { id := "item009", name := "Lamp", quantity := 1 }]

def exCartDup : List CartItem :=
  [{ id := "item002", name := "Widget", quantity := 2 },
   { id := "item002", name := "Widget", quantity := 3 }]

def exUserWith (cart : List CartItem) : User :=
  { name := some "Buyer", cart_items := cart, orders := some 4,
    shipping_addresses := [("a1", exAddr)], order_history := [] }

def exStateWith (cart : List CartItem) : DBState :=
  { users := [("buyer@example_com", exUserWith cart)],
    stockitems := [("item002", exWidget), ("item009", exLamp)],
    order_ids := [], invoice_ids := [], return_ids := [],
    stock_notifications := [] }

/-- C2 witness: a cart with an out-of-stock line aborts with 409 and the
adjusted cart is persisted. -/
theorem place_order_cart_conflict_witness :
    place_order (exStateWith exCartOOS) "buyer@example.com" "a1" [7] [8]
        "Shipped" "01-Jan-2025" =
      some (.cartChanged
        ("Your cart has been updated due to stock changes. Please review and proceed. "
          ++ String.intercalate " "
              (validateCart (exStateWith exCartOOS).stockitems
                (exUserWith exCartOOS).cart_items).2.1)
        (validateCart (exStateWith exCartOOS).stockitems
          (exUserWith exCartOOS).cart_items).1,
        withUserCart (exStateWith exCartOOS) (encodeEmailKey "buyer@example.com")
          (exUserWith exCartOOS)
          (validateCart (exStateWith exCartOOS).stockitems
            (exUserWith exCartOOS).cart_items).1) :=
  ((place_order_cart_conflict (exStateWith exCartOOS) "buyer@example.com" "a1"
      [7] [8] "Shipped" "01-Jan-2025" (exUserWith exCartOOS) exAddr
      (by decide) (by decide) (by decide) (by decide)).1 (by decide)).1

/-- C3 witness: the clean single-line cart commits with the claimed effects. -/
theorem place_order_commit_witness :
    ∃ st' u' order,
      place_order (exStateWith exCartClean) "buyer@example.com" "a1" [7] [8]
          "Shipped" "01-Jan-2025" = some (.orderPlaced "ORD00007" "INV00008", st') ∧
      dictGet st'.users (encodeEmailKey "buyer@example.com") = some u' ∧
      dictGet u'.order_history "ORD00007" = some order ∧
      (∀ k, k ≠ "ORD00007" →
        dictGet u'.order_history k = dictGet (exUserWith exCartClean).order_history k) ∧
      u'.cart_items = [] ∧
      u'.orders = some ((exUserWith exCartClean).orders.getD 0 + 1) ∧
      st'.order_ids = (exStateWith exCartClean).order_ids ++ ["ORD00007"] ∧
      "ORD00007" ∈ st'.order_ids ∧
      st'.invoice_ids = (exStateWith exCartClean).invoice_ids ++ ["INV00008"] ∧
      "INV00008" ∈ st'.invoice_ids ∧
      order.orderId = "ORD00007" ∧ order.invoiceId = "INV00008" ∧
      order.totalAmount = liveTotalSpec (exStateWith exCartClean).stockitems
        (exUserWith exCartClean).cart_items ∧
      order.items = snapshotSpec (exStateWith exCartClean).stockitems
        (exUserWith exCartClean).cart_items :=
  place_order_commit (exStateWith exCartClean) "buyer@example.com" "a1" [7] [8]
    "Shipped" "01-Jan-2025" (exUserWith exCartClean) exAddr "ORD00007" "INV00008"
    (by decide) (by decide) (by decide) (by decide) (by decide) (by decide) (by decide)

/-- C4, evaluated at the failing input: with the same product split over two
cart lines (quantities 2 and 3, live stock 25), `place_order` succeeds and
bills all five units (total 6495 = 1299·5), but the stock write keyed by
product id is overwritten per line, so `availableStock` afterwards is 22 =
25 − 3, not 25 − 5 — the purchased quantity is not what is decremented.
The first conjunct checks the spec's single-line scenario, which does
behave as claimed (success, total 2598, stock 23 = 25 − 2). -/
theorem place_order_stock_decrement_failing_input :
    ((place_order (exStateWith exCartClean) "buyer@example.com" "a1" [7] [8]
        "Shipped" "01-Jan-2025").map
        (fun x => (x.1, (dictGet x.2.stockitems "item002").map Product.availableStock,
          (dictGet x.2.users "buyer@example_com").bind
            (fun u => (dictGet u.order_history "ORD00007").map Order.totalAmount))) =
      some (.orderPlaced "ORD00007" "INV00008", some (some 23), some 2598)) ∧
    matchesIdPattern "ORD00007" = true ∧
    ((place_order (exStateWith exCartDup) "buyer@example.com" "a1" [7] [8]
        "Shipped" "01-Jan-2025").map
        (fun x => (x.1, (dictGet x.2.stockitems "item002").map Product.availableStock,
          (dictGet x.2.users "buyer@example_com").bind
            (fun u => (dictGet u.order_history "ORD00007").map Order.totalAmount))) =
      some (.orderPlaced "ORD00007" "INV00008", some (some 22), some 6495)) ∧
    (22 : Int) ≠ 25 - (2 + 3) := by
  refine ⟨by decide, by decide, by decide, by decide⟩

/-! ## Return requests (`request_return`, `app.py` lines 1085–1177)

`datetime` values are seconds since the proleptic-Gregorian epoch
(1-Jan-1); `datetime.strptime(s, '%d-%b-%Y')` yields midnight of the parsed
day, and `timedelta(days=15)` is `15 * 86400` seconds, so the comparison
`datetime.now() - delivery_date > timedelta(days=15)` is exact under this
encoding. -/

/-- The `%b` month abbreviations (the exact forms `strftime` emits; Python's
`strptime` additionally matches them case-insensitively and in full). -/
def monthOfAbbrev : String → Option Nat
  | "Jan" => some 1
  | "Feb" => some 2
  | "Mar" => some 3
  | "Apr" => some 4
  | "May" => some 5
  | "Jun" => some 6
  | "Jul" => some 7
  | "Aug" => some 8
  | "Sep" => some 9
  | "Oct" => some 10
  | "Nov" => some 11
  | "Dec" => some 12
  | _ => none

def isLeapYear (y : Nat) : Bool :=
  (y % 4 = 0 && y % 100 ≠ 0) || y % 400 = 0

def daysInMonth (m y : Nat) : Nat :=
  if m = 2 then (if isLeapYear y then 29 else 28)
  else if m = 4 ∨ m = 6 ∨ m = 9 ∨ m = 11 then 30
  else 31

/-- Days contributed by the months strictly before month `m` of year `y`. -/
def daysBeforeMonth (m y : Nat) : Nat :=
  ((List.range (m - 1)).map (fun i => daysInMonth (i + 1) y)).sum

/-- Days from 1-Jan-1 to the given civil date (proleptic Gregorian). -/
def daysFromCivil (y m d : Nat) : Nat :=
  (y - 1) * 365 + (y - 1) / 4 - (y - 1) / 100 + (y - 1) / 400 +
    daysBeforeMonth m y + (d - 1)

/-- Seconds-since-epoch of midnight of a civil date. -/
def dateToSeconds (y m d : Nat) : Int :=
  (daysFromCivil y m d : Int) * 86400

def parseNatDigits (cs : List Char) : Option Nat :=
  if cs ≠ [] ∧ cs.all Char.isDigit then
    some (cs.foldl (fun a c => a * 10 + (c.toNat - 48)) 0)
  else none

/-- `datetime.strptime(s, '%d-%b-%Y')`, restricted to the shapes
`strftime('%d-%b-%Y')` produces (digits-dash-abbrev-dash-digits), with the
calendar validity check `strptime` performs; returns `(year, month, day)`. -/
def strptime_d_b_Y (s : String) : Option (Nat × Nat × Nat) :=
  match s.data.splitOn '-' with
  | [ds, ms, ys] =>
    match parseNatDigits ds, monthOfAbbrev (String.mk ms), parseNatDigits ys with
    | some d, some m, some y =>
        if 1 ≤ d ∧ d ≤ daysInMonth m y then some (y, m, d) else none
    | _, _, _ => none
  | _ => none

/-- `addressInfo` as parsed from the multipart form:
`{'type': …, 'customAddress': …}` read with `.get`. -/
structure AddressInfo where
  type : Option String
  customAddress : Option Address
  deriving DecidableEq

/-- `contactInfo` as parsed from the multipart form. -/
structure ContactInfo where
  type : Option String
  customContact : Option String
  deriving DecidableEq

/-- The JSON responses of `request_return` (the 401/JSON-parse guards
happen before any state is read and are outside the modelled body). -/
inductive RRResponse where
  | incompleteData
  | userNotFound
  | orderNotFound
  | alreadyProcessed (status : String)
  | onlyDelivered
  | noDeliveryDate
  | windowExpired
  | uploadFailed (err : String)
  | unexpectedError
  | returnRequested (returnInvoiceId : String)
  deriving DecidableEq

/-- HTTP status of each `request_return` response. -/
def rrStatus : RRResponse → Nat
  | .incompleteData => 400
  | .userNotFound => 404
  | .orderNotFound => 404
  | .alreadyProcessed _ => 400
  | .onlyDelivered => 400
  | .noDeliveryDate => 400
  | .windowExpired => 400
  | .uploadFailed _ => 500
  | .unexpectedError => 500
  | .returnRequested _ => 200

/-- The user-facing error text of each `request_return` error response,
verbatim from `app.py`. -/
def rrErrorMsg : RRResponse → Option String
  | .incompleteData => some "Incomplete return request data."
  | .userNotFound => some "User not found."
  | .orderNotFound => some "Order not found."
  | .alreadyProcessed s => some ("Return already processed. Status: " ++ s)
  | .onlyDelivered => some "Only delivered items can be returned."
  | .noDeliveryDate => some "Delivery date not found."
  | .windowExpired => some "The 15-day return window has expired."
  | .uploadFailed e => some ("Video upload failed: " ++ e)
  | .unexpectedError => some "An unexpected error occurred."
  | .returnRequested _ => none

/-- The tail of `request_return` (lines 1128–1157): pickup address/contact
resolution, return-id generation, video upload, and the return write.
`uploadResult` is the outcome of `upload_video_to_r2` (`Except.error msg`
for `(None, error)`, `Except.ok url` for success); `retDraws` feeds
`generate_unique_id('RET', 'returns')` and `none` models its divergence. -/
def rrCommit (st : DBState) (safe_email_key order_id reason : String)
    (ai : AddressInfo) (ci : ContactInfo) (user_data : User) (order_data : Order)
    (retDraws : List Nat) (uploadResult : Except String String) :
    Option (RRResponse × DBState) :=
  let return_address :=
    if ai.type = some "same" then order_data.shippingAddress
    else ai.customAddress.getD { phone := none, rest := "" }
  let return_contact :=
    if ci.type = some "same" then order_data.shippingAddress.phone.getD ""
    else ci.customContact.getD ""
  match generate_unique_id "RET" st.return_ids retDraws with
  | none => none
  | some return_invoice_id =>
    match uploadResult with
    | .error e => some (.uploadFailed e, st)
    | .ok video_url =>
      let return_details : ReturnDetails :=
        { reason := reason, videoUrl := video_url,
          pickupAddress := return_address, pickupContact := return_contact }
      let order2 : Order :=
        { order_data with
          status := "Return Requested",
          returnInvoiceId := some return_invoice_id,
          returnDetails := some return_details }
      let user2 : User :=
        { user_data with
          order_history := dictSet user_data.order_history order_id order2 }
      some (.returnRequested return_invoice_id,
        { st with
          users := dictSet st.users safe_email_key user2,
          return_ids := st.return_ids ++ [return_invoice_id] })

/-- The delivery-date/return-window block of `request_return`
(lines 1121–1126), continuing into `rrCommit`; `now` is `datetime.now()` in
seconds, and a `strptime` failure is the uncaught `ValueError` the outer
handler turns into the generic 500. -/
def rrWindowCheck (st : DBState) (safe_email_key order_id reason : String)
    (ai : AddressInfo) (ci : ContactInfo) (user_data : User) (order_data : Order)
    (now : Int) (retDraws : List Nat) (uploadResult : Except String String) :
    Option (RRResponse × DBState) :=
  match order_data.deliveryDate with
  | none => some (.noDeliveryDate, st)
  | some dstr =>
    match strptime_d_b_Y dstr with
    | none => some (.unexpectedError, st)
    | some (y, m, d) =>
      if now - dateToSeconds y m d > 15 * 86400 then
        some (.windowExpired, st)
      else
        rrCommit st safe_email_key order_id reason ai ci user_data order_data
          retDraws uploadResult

/-- `request_return` (lines 1085–1177), after the session and JSON-parse
guards: the form-completeness check, the user/order lookups and the status
gate (lines 1100–1119), continuing into `rrWindowCheck`.  `video_file` is
whether a file was attached; the upload itself is only *performed* on the
path that reaches it. -/
def request_return (st : DBState) (user_email : String)
    (order_id reason : String) (address_info : Option AddressInfo)
    (contact_info : Option ContactInfo) (video_file : Bool)
    (now : Int) (retDraws : List Nat) (uploadResult : Except String String) :
    Option (RRResponse × DBState) :=
  match address_info, contact_info with
  | some ai, some ci =>
    if order_id = "" ∨ reason = "" ∨ video_file = false then
      some (.incompleteData, st)
    else
      let safe_email_key := encodeEmailKey user_email
      match dictGet st.users safe_email_key with
      | none => some (.userNotFound, st)
      | some user_data =>
        match dictGet user_data.order_history order_id with
        | none => some (.orderNotFound, st)
        | some order_data =>
          if order_data.status = "Return Requested" ∨
              order_data.status = "Returned" then
            some (.alreadyProcessed order_data.status, st)
          else if order_data.status ≠ "Delivered" then
            some (.onlyDelivered, st)
          else
            rrWindowCheck st safe_email_key order_id reason ai ci user_data
              order_data now retDraws uploadResult
  | _, _ => some (.incompleteData, st)

/-! ## Fixtures for the return-request claims -/

def exOrderDelivered : Order :=
  { orderId := "ORD11111", invoiceId := "INV11111", status := "Delivered",
    items := [], shippingAddress := exAddr, totalAmount := 2598,
    deliveryDate := some "01-Jan-2025", returnInvoiceId := none,
    returnDetails := none }

def exOrderShipped : Order :=
  { exOrderDelivered with orderId := "ORD22222", status := "Shipped" }

def exOrderReturnReq : Order :=
  { exOrderDelivered with orderId := "ORD33333", status := "Return Requested" }

def exUserRet : User :=
  { name := some "Buyer", cart_items := [], orders := some 4,
    shipping_addresses := [("a1", exAddr)],
    order_history := [("ORD11111", exOrderDelivered),
                      ("ORD22222", exOrderShipped),
                      ("ORD33333", exOrderReturnReq)] }

def exStateRet : DBState :=
  { users := [("buyer@example_com", exUserRet)], stockitems := [],
    order_ids := [], invoice_ids := [], return_ids := [],
    stock_notifications := [] }

def exAI : AddressInfo := { type := some "same", customAddress := none }

def exCI : ContactInfo := { type := some "same", customContact := none }

/-- Midnight of 1-Jan-2025, the delivery date of `exOrderDelivered`. -/
def T0 : Int := dateToSeconds 2025 1 1

/-- Every response of `rrCommit` is either the upload failure (state
unchanged) or the success response. -/
theorem rrCommit_resp (st : DBState) (skey oid rsn : String) (ai : AddressInfo)
    (ci : ContactInfo) (ud : User) (od : Order) (draws : List Nat)
    (up : Except String String) (resp : RRResponse) (st2 : DBState)
    (h : rrCommit st skey oid rsn ai ci ud od draws up = some (resp, st2)) :
    (∃ e, resp = .uploadFailed e ∧ st2 = st) ∨ ∃ rid, resp = .returnRequested rid := by
  unfold rrCommit at h
  cases hg : generate_unique_id "RET" st.return_ids draws with
  | none =>
    rw [hg] at h
    exact Option.noConfusion h
  | some rid =>
    rw [hg] at h
    cases up with
    | error e =>
      have h2 := Option.some.inj h
      exact Or.inl ⟨e, (congrArg Prod.fst h2).symm, (congrArg Prod.snd h2).symm⟩
    | ok url =>
      have h2 := Option.some.inj h
      exact Or.inr ⟨rid, (congrArg Prod.fst h2).symm⟩

/-- With a failing upload, `rrCommit` either diverges in id generation or
rejects with the upload failure and an unchanged state. -/
theorem rrCommit_error (st : DBState) (skey oid rsn : String) (ai : AddressInfo)
    (ci : ContactInfo) (ud : User) (od : Order) (draws : List Nat) (e : String) :
    rrCommit st skey oid rsn ai ci ud od draws (.error e) = none ∨
    rrCommit st skey oid rsn ai ci ud od draws (.error e) =
      some (.uploadFailed e, st) := by
  cases hg : generate_unique_id "RET" st.return_ids draws with
  | none => left; simp only [rrCommit, hg]
  | some rid => right; simp only [rrCommit, hg]

/-- Enumeration of the responses `rrWindowCheck` can produce. -/
theorem rrWindowCheck_resp (st : DBState) (skey oid rsn : String)
    (ai : AddressInfo) (ci : ContactInfo) (ud : User) (od : Order) (now : Int)
    (draws : List Nat) (up : Except String String) (resp : RRResponse)
    (st2 : DBState)
    (h : rrWindowCheck st skey oid rsn ai ci ud od now draws up = some (resp, st2)) :
    resp = .noDeliveryDate ∨ resp = .unexpectedError ∨ resp = .windowExpired ∨
    (∃ e, resp = .uploadFailed e) ∨ ∃ rid, resp = .returnRequested rid := by
  unfold rrWindowCheck at h
  cases hdd : od.deliveryDate with
  | none =>
    rw [hdd] at h
    exact Or.inl (congrArg Prod.fst (Option.some.inj h)).symm
  | some dstr =>
    rw [hdd] at h
    replace h : (match strptime_d_b_Y dstr with
        | none => some (RRResponse.unexpectedError, st)
        | some (y, m, d) =>
          if now - dateToSeconds y m d > 15 * 86400 then
            some (RRResponse.windowExpired, st)
          else rrCommit st skey oid rsn ai ci ud od draws up) =
        some (resp, st2) := h
    cases hps : strptime_d_b_Y dstr with
    | none =>
      rw [hps] at h
      exact Or.inr (Or.inl (congrArg Prod.fst (Option.some.inj h)).symm)
    | some ymd =>
      obtain ⟨y, m, d⟩ := ymd
      rw [hps] at h
      replace h : (if now - dateToSeconds y m d > 15 * 86400 then
          some (RRResponse.windowExpired, st)
          else rrCommit st skey oid rsn ai ci ud od draws up) = some (resp, st2) := h
      by_cases hw : now - dateToSeconds y m d > 15 * 86400
      · rw [if_pos hw] at h
        exact Or.inr (Or.inr (Or.inl (congrArg Prod.fst (Option.some.inj h)).symm))
      · rw [if_neg hw] at h
        rcases rrCommit_resp _ _ _ _ _ _ _ _ _ _ _ _ h with ⟨e, he, _⟩ | ⟨rid, hr⟩
        · exact Or.inr (Or.inr (Or.inr (Or.inl ⟨e, he⟩)))
        · exact Or.inr (Or.inr (Or.inr (Or.inr ⟨rid, hr⟩)))

/-- With a failing upload, `rrWindowCheck` either diverges in id generation
or answers an error with the state unchanged — never the success response. -/
theorem rrWindowCheck_error (st : DBState) (skey oid rsn : String)
    (ai : AddressInfo) (ci : ContactInfo) (ud : User) (od : Order) (now : Int)
    (draws : List Nat) (e : String) :
    rrWindowCheck st skey oid rsn ai ci ud od now draws (.error e) = none ∨
    ∃ resp2, rrWindowCheck st skey oid rsn ai ci ud od now draws (.error e) =
      some (resp2, st) ∧ ∀ rid, resp2 ≠ .returnRequested rid := by
  cases hdd : od.deliveryDate with
  | none =>
    right
    exact ⟨.noDeliveryDate, by simp only [rrWindowCheck, hdd],
      fun rid hcon => RRResponse.noConfusion hcon⟩
  | some dstr =>
    cases hps : strptime_d_b_Y dstr with
    | none =>
      right
      exact ⟨.unexpectedError, by simp only [rrWindowCheck, hdd, hps],
        fun rid hcon => RRResponse.noConfusion hcon⟩
    | some ymd =>
      obtain ⟨y, m, d⟩ := ymd
      by_cases hw : now - dateToSeconds y m d > 15 * 86400
      · right
        exact ⟨.windowExpired, by simp only [rrWindowCheck, hdd, hps, if_pos hw],
          fun rid hcon => RRResponse.noConfusion hcon⟩
      · have hred : rrWindowCheck st skey oid rsn ai ci ud od now draws (.error e) =
            rrCommit st skey oid rsn ai ci ud od draws (.error e) := by
          simp only [rrWindowCheck, hdd, hps, if_neg hw]
        rw [hred]
        rcases rrCommit_error st skey oid rsn ai ci ud od draws e with hc | hc
        · exact Or.inl hc
        · exact Or.inr ⟨.uploadFailed e, hc,
            fun rid hcon => RRResponse.noConfusion hcon⟩

/-- With a failing upload, `request_return` either diverges in id
generation or answers an error with the state unchanged — never success. -/
theorem request_return_error_aux (st : DBState) (user_email oid rsn : String)
    (address_info : Option AddressInfo) (contact_info : Option ContactInfo)
    (video_file : Bool) (now : Int) (draws : List Nat) (e : String) :
    request_return st user_email oid rsn address_info contact_info video_file
      now draws (.error e) = none ∨
    ∃ resp2, request_return st user_email oid rsn address_info contact_info
      video_file now draws (.error e) = some (resp2, st) ∧
      ∀ rid, resp2 ≠ .returnRequested rid := by
  cases address_info with
  | none =>
    right
    exact ⟨.incompleteData, rfl, fun rid hcon => RRResponse.noConfusion hcon⟩
  | some ai =>
    cases contact_info with
    | none =>
      right
      exact ⟨.incompleteData, rfl, fun rid hcon => RRResponse.noConfusion hcon⟩
    | some ci =>
      by_cases hform : oid = "" ∨ rsn = "" ∨ video_file = false
      · right
        exact ⟨.incompleteData, by simp only [request_return, if_pos hform],
          fun rid hcon => RRResponse.noConfusion hcon⟩
      · cases hud : dictGet st.users (encodeEmailKey user_email) with
        | none =>
          right
          exact ⟨.userNotFound, by simp only [request_return, if_neg hform, hud],
            fun rid hcon => RRResponse.noConfusion hcon⟩
        | some ud =>
          cases ho2 : dictGet ud.order_history oid with
          | none =>
            right
            exact ⟨.orderNotFound,
              by simp only [request_return, if_neg hform, hud, ho2],
              fun rid hcon => RRResponse.noConfusion hcon⟩
          | some od =>
            by_cases hs : od.status = "Return Requested" ∨ od.status = "Returned"
            · right
              exact ⟨.alreadyProcessed od.status,
                by simp only [request_return, if_neg hform, hud, ho2, if_pos hs],
                fun rid hcon => RRResponse.noConfusion hcon⟩
            · by_cases hnd : od.status ≠ "Delivered"
              · right
                exact ⟨.onlyDelivered,
                  by simp only [request_return, if_neg hform, hud, ho2,
                    if_neg hs, if_pos hnd],
                  fun rid hcon => RRResponse.noConfusion hcon⟩
              · have hred : request_return st user_email oid rsn (some ai)
                    (some ci) video_file now draws (.error e) =
                    rrWindowCheck st (encodeEmailKey user_email) oid rsn ai ci
                      ud od now draws (.error e) := by
                  simp only [request_return, if_neg hform, hud, ho2,
                    if_neg hs, if_neg hnd]
                rw [hred]
                exact rrWindowCheck_error st (encodeEmailKey user_email) oid rsn
                  ai ci ud od now draws e

/-- C6: with the request form complete and the order found, `request_return`
rejects an order whose status is "Return Requested" or "Returned" with the
"Return already processed" error, rejects any other non-"Delivered" status
(e.g. "Shipped") with the distinct "Only delivered items can be returned."
error, and only status exactly "Delivered" gets past the status gate. -/
theorem request_return_status_gate
    (st : DBState) (user_email order_id reason : String)
    (ai : AddressInfo) (ci : ContactInfo) (now : Int) (retDraws : List Nat)
    (uploadResult : Except String String) (user_data : User) (order_data : Order)
    (hoid : order_id ≠ "") (hreason : reason ≠ "")
    (hu : dictGet st.users (encodeEmailKey user_email) = some user_data)
    (ho : dictGet user_data.order_history order_id = some order_data) :
    (order_data.status = "Return Requested" ∨ order_data.status = "Returned" →
      request_return st user_email order_id reason (some ai) (some ci) true
          now retDraws uploadResult =
        some (.alreadyProcessed order_data.status, st) ∧
      rrStatus (.alreadyProcessed order_data.status) = 400 ∧
      rrErrorMsg (.alreadyProcessed order_data.status) =
        some ("Return already processed. Status: " ++ order_data.status)) ∧
    (¬(order_data.status = "Return Requested" ∨ order_data.status = "Returned") →
      order_data.status ≠ "Delivered" →
      request_return st user_email order_id reason (some ai) (some ci) true
          now retDraws uploadResult = some (.onlyDelivered, st) ∧
      rrStatus .onlyDelivered = 400 ∧
      rrErrorMsg .onlyDelivered = some "Only delivered items can be returned.") ∧
    (order_data.status = "Delivered" →
      ∀ resp st2,
        request_return st user_email order_id reason (some ai) (some ci) true
            now retDraws uploadResult = some (resp, st2) →
        (∀ s, resp ≠ .alreadyProcessed s) ∧ resp ≠ .onlyDelivered) := by
  have hcond : ¬(order_id = "" ∨ reason = "" ∨ true = false) := by
    simp [hoid, hreason]
  refine ⟨?_, ?_, ?_⟩
  · intro hs
    refine ⟨?_, rfl, rfl⟩
    simp only [request_return, if_neg hcond, hu, ho, if_pos hs]
  · intro hs hnd
    refine ⟨?_, rfl, rfl⟩
    simp only [request_return, if_neg hcond, hu, ho, if_neg hs, if_pos hnd]
  · intro hD resp st2 h
    have hs : ¬(order_data.status = "Return Requested" ∨
        order_data.status = "Returned") := by
      rw [hD]; decide
    have hnd : ¬(order_data.status ≠ "Delivered") := by
      rw [hD]; decide
    simp only [request_return, if_neg hcond, hu, ho, if_neg hs, if_neg hnd] at h
    rcases rrWindowCheck_resp _ _ _ _ _ _ _ _ _ _ _ _ _ h with
      rfl | rfl | rfl | ⟨e, rfl⟩ | ⟨rid, rfl⟩ <;>
      exact ⟨fun s hcon => RRResponse.noConfusion hcon,
             fun hcon => RRResponse.noConfusion hcon⟩

/-- C6 witness: a "Return Requested" order is rejected as already processed
and a "Shipped" order as not delivered. -/
theorem request_return_status_gate_witness :
    request_return exStateRet "buyer@example.com" "ORD33333" "defect"
        (some exAI) (some exCI) true (T0 + 86400) [3] (.ok "url") =
      some (.alreadyProcessed "Return Requested", exStateRet) ∧
    request_return exStateRet "buyer@example.com" "ORD22222" "defect"
        (some exAI) (some exCI) true (T0 + 86400) [3] (.ok "url") =
      some (.onlyDelivered, exStateRet) :=
  ⟨((request_return_status_gate exStateRet "buyer@example.com" "ORD33333" "defect"
      exAI exCI (T0 + 86400) [3] (.ok "url") exUserRet exOrderReturnReq
      (by decide) (by decide) (by decide) (by decide)).1 (Or.inl rfl)).1,
   ((request_return_status_gate exStateRet "buyer@example.com" "ORD22222" "defect"
      exAI exCI (T0 + 86400) [3] (.ok "url") exUserRet exOrderShipped
      (by decide) (by decide) (by decide) (by decide)).2.1 (by decide) (by decide)).1⟩

/-- C7: for a delivered order whose delivery date string parses to the civil
date `(y, m, d)` — so `T = dateToSeconds y m d` — `request_return` rejects
with the window-expired error exactly when `now − T > 15` days; in
particular `T + 16` days is rejected while `T + 14` days and a difference
of exactly `15` days are not rejected for the window. -/
theorem request_return_window
    (st : DBState) (user_email order_id reason : String)
    (ai : AddressInfo) (ci : ContactInfo) (now : Int) (retDraws : List Nat)
    (uploadResult : Except String String) (user_data : User) (order_data : Order)
    (dstr : String) (y m d : Nat)
    (hoid : order_id ≠ "") (hreason : reason ≠ "")
    (hu : dictGet st.users (encodeEmailKey user_email) = some user_data)
    (ho : dictGet user_data.order_history order_id = some order_data)
    (hD : order_data.status = "Delivered")
    (hdd : order_data.deliveryDate = some dstr)
    (hps : strptime_d_b_Y dstr = some (y, m, d)) :
    (now - dateToSeconds y m d > 15 * 86400 →
      request_return st user_email order_id reason (some ai) (some ci) true
          now retDraws uploadResult = some (.windowExpired, st) ∧
      rrStatus .windowExpired = 400 ∧
      rrErrorMsg .windowExpired = some "The 15-day return window has expired.") ∧
    (now - dateToSeconds y m d ≤ 15 * 86400 →
      ∀ resp st2,
        request_return st user_email order_id reason (some ai) (some ci) true
            now retDraws uploadResult = some (resp, st2) →
        resp ≠ .windowExpired) := by
  have hcond : ¬(order_id = "" ∨ reason = "" ∨ true = false) := by
    simp [hoid, hreason]
  have hs : ¬(order_data.status = "Return Requested" ∨
      order_data.status = "Returned") := by
    rw [hD]; decide
  have hnd : ¬(order_data.status ≠ "Delivered") := by
    rw [hD]; decide
  constructor
  · intro hw
    refine ⟨?_, rfl, rfl⟩
    simp only [request_return, if_neg hcond, hu, ho, if_neg hs, if_neg hnd,
      rrWindowCheck, hdd, hps, if_pos hw]
  · intro hle resp st2 h
    have hw : ¬(now - dateToSeconds y m d > 15 * 86400) := by omega
    simp only [request_return, if_neg hcond, hu, ho, if_neg hs, if_neg hnd,
      rrWindowCheck, hdd, hps, if_neg hw] at h
    rcases rrCommit_resp _ _ _ _ _ _ _ _ _ _ _ _ h with ⟨e, rfl, _⟩ | ⟨rid, rfl⟩ <;>
      exact fun hcon => RRResponse.noConfusion hcon

/-- C7 witness: for delivery date 01-Jan-2025, a request 16 days later is
window-rejected while requests at exactly 15 days and at 14 days are not. -/
theorem request_return_window_witness :
    request_return exStateRet "buyer@example.com" "ORD11111" "defect"
        (some exAI) (some exCI) true (T0 + 16 * 86400) [3] (.ok "url") =
      some (.windowExpired, exStateRet) ∧
    (∀ resp st2,
      request_return exStateRet "buyer@example.com" "ORD11111" "defect"
          (some exAI) (some exCI) true (T0 + 15 * 86400) [3] (.ok "url") =
        some (resp, st2) → resp ≠ .windowExpired) ∧
    (∀ resp st2,
      request_return exStateRet "buyer@example.com" "ORD11111" "defect"
          (some exAI) (some exCI) true (T0 + 14 * 86400) [3] (.ok "url") =
        some (resp, st2) → resp ≠ .windowExpired) :=
  ⟨((request_return_window exStateRet "buyer@example.com" "ORD11111" "defect"
      exAI exCI (T0 + 16 * 86400) [3] (.ok "url") exUserRet exOrderDelivered
      "01-Jan-2025" 2025 1 1 (by decide) (by decide) (by decide) (by decide)
      (by decide) (by decide) (by decide)).1 (by decide)).1,
   (request_return_window exStateRet "buyer@example.com" "ORD11111" "defect"
      exAI exCI (T0 + 15 * 86400) [3] (.ok "url") exUserRet exOrderDelivered
      "01-Jan-2025" 2025 1 1 (by decide) (by decide) (by decide) (by decide)
      (by decide) (by decide) (by decide)).2 (by decide),
   (request_return_window exStateRet "buyer@example.com" "ORD11111" "defect"
      exAI exCI (T0 + 14 * 86400) [3] (.ok "url") exUserRet exOrderDelivered
      "01-Jan-2025" 2025 1 1 (by decide) (by decide) (by decide) (by decide)
      (by decide) (by decide) (by decide)).2 (by decide)⟩

/-- C8: if the verification-video upload fails, `request_return` answers an
error — the upload path's own answer being the 500 upload failure — and
performs no database mutation: the returned state (order status, return
metadata and the `existing_ids/returns` reservation index included) is
exactly the input state, and no success response is produced. -/
theorem request_return_upload_failure
    (st : DBState) (user_email order_id reason : String)
    (address_info : Option AddressInfo) (contact_info : Option ContactInfo)
    (video_file : Bool) (now : Int) (retDraws : List Nat) (e : String)
    (resp : RRResponse) (st2 : DBState)
    (h : request_return st user_email order_id reason address_info contact_info
        video_file now retDraws (Except.error e) = some (resp, st2)) :
    st2 = st ∧ (∀ rid, resp ≠ .returnRequested rid) ∧
    rrStatus (.uploadFailed e) = 500 := by
  rcases request_return_error_aux st user_email order_id reason address_info
      contact_info video_file now retDraws e with hn | ⟨resp2, heq, hne⟩
  · rw [hn] at h
    exact Option.noConfusion h
  · rw [heq] at h
    have h2 := Option.some.inj h
    have hr : resp2 = resp := congrArg Prod.fst h2
    have hst : st = st2 := congrArg Prod.snd h2
    refine ⟨hst.symm, ?_, rfl⟩
    intro rid
    rw [← hr]
    exact hne rid

/-- C8 witness: a concrete run with a failing upload returns the 500 upload
error and the state is unchanged. -/
theorem request_return_upload_failure_witness :
    exStateRet = exStateRet ∧
    (∀ rid, (RRResponse.uploadFailed "boom") ≠ .returnRequested rid) ∧
    rrStatus (.uploadFailed "boom") = 500 :=
  request_return_upload_failure exStateRet "buyer@example.com" "ORD11111"
    "defect" (some exAI) (some exCI) true (T0 + 86400) [3] "boom"
    (.uploadFailed "boom") exStateRet (by decide)

/-! ## Stock notification dispatch (`handle_stock_notifications`,
`app.py` lines 1044–1082) -/

/-- A restocked product as passed to `handle_stock_notifications`: the
dispatcher reads its `id`; the rest feeds the email body. -/
structure RestockItem where
  id : String
  name : String
  deriving DecidableEq

/-- One step of the inversion loop (lines 1060–1062): Python's
`if user_email not in user_notifications: user_notifications[user_email] = []`
followed by `append`, on an insertion-ordered dict. -/
def addNotif (acc : List (String × List RestockItem)) (email : String)
    (p : RestockItem) : List (String × List RestockItem) :=
  match acc with
  | [] => [(email, [p])]
  | (e, ps) :: rest =>
    if e = email then (e, ps ++ [p]) :: rest
    else (e, ps) :: addNotif rest email p

/-- The inversion loop (lines 1054–1062): for each restocked product with a
waitlist, append the product to each waiting user's list, keyed by the
decoded email address. -/
def buildUserNotifications (allNotifications : List (String × List String)) :
    List RestockItem → List (String × List RestockItem) →
    List (String × List RestockItem)
  | [], acc => acc
  | product :: rest, acc =>
    match dictGet allNotifications product.id with
    | none => buildUserNotifications allNotifications rest acc
    | some users_to_notify =>
      buildUserNotifications allNotifications rest
        (users_to_notify.foldl
          (fun a safe_email_key => addNotif a (decodeEmailKey safe_email_key) product)
          acc)

/-- `handle_stock_notifications(restocked_products)` (lines 1044–1082).
On completion the result is `some (emails, state)`: the batch emails sent
— one `(recipient, display name, products)` triple per send — together
with the state after the single multi-path delete (line 1081).  The delete
writes `None` at `stock_notifications/{product_id}/{safe_email_key}` for
every pair in the batch; emptied per-product nodes are kept as empty lists
(Firebase drops the node, which is membership-equivalent).

`none` is the crash path: line 1067 reads the whole `users` tree
unguarded, and Firebase returns `None` for an absent tree (an empty node
cannot be stored, so `st.users = []` models exactly that); with a
non-empty batch, line 1072 then calls `.get` on `None` and raises
`AttributeError` before any email send or waitlist deletion. -/
def handle_stock_notifications (st : DBState) (restocked : List RestockItem) :
    Option (List (String × String × List RestockItem) × DBState) :=
  if st.stock_notifications = [] then some ([], st)
  else
    let user_notifications := buildUserNotifications st.stock_notifications restocked []
    if user_notifications = [] then some ([], st)
    else if st.users = [] then none
    else
      let emails := user_notifications.map (fun x =>
        (x.1,
         ((dictGet st.users (encodeEmailKey x.1)).bind (fun u => u.name)).getD
           "Valued Customer",
         x.2))
      let paths_to_delete := user_notifications.flatMap (fun x =>
        x.2.map (fun p => (p.id, encodeEmailKey x.1)))
      some (emails,
       { st with stock_notifications := st.stock_notifications.map (fun entry =>
           (entry.1,
            entry.2.filter (fun k => decide ((entry.1, k) ∉ paths_to_delete)))) })

/-- Whether user key `u` is on the waitlist of product `p`. -/
def waitlisted (waitlist : List (String × List String)) (u : String)
    (p : RestockItem) : Bool :=
  match dictGet waitlist p.id with
  | none => false
  | some us => u ∈ us
/-! ### Lemmas for the notification dispatcher -/

theorem encode_decode_key (k : String) (h : ∀ c ∈ k.data, c ≠ '.') :
    encodeEmailKey (decodeEmailKey k) = k := by
  unfold encodeEmailKey decodeEmailKey pyReplaceChar
  cases k with
  | mk l =>
    show String.mk ((l.map (fun c => if c = '_' then '.' else c)).map
      (fun c => if c = '.' then '_' else c)) = String.mk l
    rw [List.map_map]
    have : l.map ((fun c => if c = '.' then '_' else c) ∘
        (fun c => if c = '_' then '.' else c)) = l := by
      conv_rhs => rw [← List.map_id l]
      refine List.map_congr_left ?_
      intro c hc
      have hnd : c ≠ '.' := h c hc
      by_cases hu : c = '_'
      · subst hu; simp
      · simp [Function.comp, if_neg hu, if_neg hnd]
    rw [this]

theorem decode_inj (k u : String) (hk : ∀ c ∈ k.data, c ≠ '.')
    (hu : ∀ c ∈ u.data, c ≠ '.')
    (h : decodeEmailKey k = decodeEmailKey u) : k = u := by
  have := congrArg encodeEmailKey h
  rwa [encode_decode_key k hk, encode_decode_key u hu] at this

theorem addNotif_keys (acc : List (String × List RestockItem)) (e : String)
    (p : RestockItem) :
    (addNotif acc e p).map Prod.fst =
      if e ∈ acc.map Prod.fst then acc.map Prod.fst
      else acc.map Prod.fst ++ [e] := by
  induction acc with
  | nil => simp [addNotif]
  | cons hd tl ih =>
    obtain ⟨k, ps⟩ := hd
    by_cases hk : k = e
    · subst hk
      simp [addNotif]
    · simp only [addNotif, if_neg hk, List.map_cons, ih]
      by_cases hmem : e ∈ tl.map Prod.fst
      · simp [hmem, Ne.symm hk]
      · simp [hmem, Ne.symm hk]

theorem addNotif_keys_nodup (acc : List (String × List RestockItem)) (e : String)
    (p : RestockItem) (h : (acc.map Prod.fst).Nodup) :
    ((addNotif acc e p).map Prod.fst).Nodup := by
  rw [addNotif_keys]
  by_cases hmem : e ∈ acc.map Prod.fst
  · simpa [hmem] using h
  · simp only [if_neg hmem]
    exact List.Nodup.append h (List.nodup_singleton e)
      (List.disjoint_singleton.mpr hmem)

theorem addNotif_get_self (acc : List (String × List RestockItem)) (e : String)
    (p : RestockItem) :
    dictGet (addNotif acc e p) e = some ((dictGet acc e).getD [] ++ [p]) := by
  induction acc with
  | nil => simp [addNotif, dictGet]
  | cons hd tl ih =>
    obtain ⟨k, ps⟩ := hd
    by_cases hk : k = e
    · subst hk
      simp [addNotif, dictGet]
    · simp [addNotif, dictGet, hk, ih]

theorem addNotif_get_ne (acc : List (String × List RestockItem)) (e : String)
    (p : RestockItem) (e2 : String) (h : e2 ≠ e) :
    dictGet (addNotif acc e p) e2 = dictGet acc e2 := by
  induction acc with
  | nil => simp [addNotif, dictGet, Ne.symm h]
  | cons hd tl ih =>
    obtain ⟨k, ps⟩ := hd
    by_cases hk : k = e
    · subst hk
      simp [addNotif, dictGet, Ne.symm h]
    · by_cases hk2 : k = e2
      · simp [addNotif, dictGet, hk, hk2, h]
      · simp [addNotif, dictGet, hk, hk2, ih]

theorem addNotif_products :
    ∀ (acc : List (String × List RestockItem)) (e : String) (p : RestockItem),
      ∀ x ∈ addNotif acc e p, ∀ q ∈ x.2, (∃ y ∈ acc, q ∈ y.2) ∨ q = p := by
  intro acc
  induction acc with
  | nil =>
    intro e p x hx q hq
    simp only [addNotif, List.mem_singleton] at hx
    subst hx
    simp only [List.mem_singleton] at hq
    exact Or.inr hq
  | cons hd tl ih =>
    intro e p x hx q hq
    by_cases hk : hd.1 = e
    · have hform : addNotif (hd :: tl) e p = (hd.1, hd.2 ++ [p]) :: tl := by
        obtain ⟨k, ps⟩ := hd
        simp only [addNotif, if_pos hk]
      rw [hform] at hx
      rcases List.mem_cons.mp hx with rfl | hx
      · rcases List.mem_append.mp hq with hq2 | hq2
        · exact Or.inl ⟨hd, List.mem_cons_self _ _, hq2⟩
        · exact Or.inr (List.mem_singleton.mp hq2)
      · exact Or.inl ⟨x, List.mem_cons_of_mem _ hx, hq⟩
    · have hform : addNotif (hd :: tl) e p = hd :: addNotif tl e p := by
        obtain ⟨k, ps⟩ := hd
        simp only [addNotif, if_neg hk]
      rw [hform] at hx
      rcases List.mem_cons.mp hx with rfl | hx
      · exact Or.inl ⟨x, List.mem_cons_self _ _, hq⟩
      · rcases ih e p x hx q hq with ⟨y, hy, hqy⟩ | hyp
        · exact Or.inl ⟨y, List.mem_cons_of_mem _ hy, hqy⟩
        · exact Or.inr hyp

theorem foldUsers_keys_nodup (p : RestockItem) :
    ∀ (us : List String) (acc : List (String × List RestockItem)),
      (acc.map Prod.fst).Nodup →
      ((us.foldl (fun a k => addNotif a (decodeEmailKey k) p) acc).map
        Prod.fst).Nodup := by
  intro us
  induction us with
  | nil => intro acc h; exact h
  | cons k rest ih =>
    intro acc h
    exact ih _ (addNotif_keys_nodup acc (decodeEmailKey k) p h)

theorem foldUsers_get (p : RestockItem) :
    ∀ (us : List String) (acc : List (String × List RestockItem)) (u : String),
      us.Nodup → (∀ c ∈ u.data, c ≠ '.') →
      (∀ k ∈ us, ∀ c ∈ k.data, c ≠ '.') →
      dictGet (us.foldl (fun a k => addNotif a (decodeEmailKey k) p) acc)
          (decodeEmailKey u) =
        if u ∈ us then
          some ((dictGet acc (decodeEmailKey u)).getD [] ++ [p])
        else dictGet acc (decodeEmailKey u) := by
  intro us
  induction us with
  | nil => intro acc u _ _ _; simp
  | cons k rest ih =>
    intro acc u hnd hu hks
    have hkrest : ∀ k2 ∈ rest, ∀ c ∈ k2.data, c ≠ '.' :=
      fun k2 hk2 => hks k2 (List.mem_cons_of_mem _ hk2)
    obtain ⟨hknotin, hrestnd⟩ := List.nodup_cons.mp hnd
    by_cases heq : u = k
    · subst heq
      have hunotin : u ∉ rest := hknotin
      simp only [List.foldl_cons]
      rw [ih _ u hrestnd hu hkrest]
      rw [if_neg hunotin, if_pos (List.mem_cons_self u rest)]
      exact addNotif_get_self acc (decodeEmailKey u) p
    · have hdec : decodeEmailKey u ≠ decodeEmailKey k := by
        intro hcon
        exact heq (decode_inj u k hu (hks k (List.mem_cons_self k rest)) hcon)
      simp only [List.foldl_cons]
      rw [ih _ u hrestnd hu hkrest]
      rw [addNotif_get_ne acc (decodeEmailKey k) p (decodeEmailKey u) hdec]
      by_cases hmem : u ∈ rest
      · rw [if_pos hmem, if_pos (List.mem_cons_of_mem _ hmem)]
      · rw [if_neg hmem, if_neg (by simp [heq, hmem])]

theorem foldUsers_products (p : RestockItem) :
    ∀ (us : List String) (acc : List (String × List RestockItem)),
      ∀ x ∈ us.foldl (fun a k => addNotif a (decodeEmailKey k) p) acc,
        ∀ q ∈ x.2, (∃ y ∈ acc, q ∈ y.2) ∨ q = p := by
  intro us
  induction us with
  | nil => intro acc x hx q hq; exact Or.inl ⟨x, hx, hq⟩
  | cons k rest ih =>
    intro acc x hx q hq
    simp only [List.foldl_cons] at hx
    rcases ih _ x hx q hq with ⟨y, hy, hqy⟩ | hyp
    · exact addNotif_products acc (decodeEmailKey k) p y hy q hqy
    · exact Or.inr hyp

theorem dictGet_mem {α : Type} :
    ∀ (l : List (String × α)) (q : String) (v : α),
      dictGet l q = some v → (q, v) ∈ l := by
  intro l
  induction l with
  | nil => intro q v h; exact Option.noConfusion h
  | cons hd tl ih =>
    intro q v h
    obtain ⟨k, w⟩ := hd
    by_cases hk : k = q
    · subst hk
      rw [dictGet, if_pos rfl] at h
      have : w = v := Option.some.inj h
      subst this
      exact List.mem_cons_self _ _
    · rw [dictGet, if_neg hk] at h
      exact List.mem_cons_of_mem _ (ih q v h)

theorem dictGet_map_filter (paths : List (String × String)) :
    ∀ (l : List (String × List String)) (q : String),
      dictGet (l.map (fun entry => (entry.1, entry.2.filter (fun k =>
          decide ((entry.1, k) ∉ paths))))) q =
        (dictGet l q).map (fun us => us.filter (fun k =>
          decide ((q, k) ∉ paths))) := by
  intro l
  induction l with
  | nil => intro q; rfl
  | cons hd tl ih =>
    intro q
    obtain ⟨k, v⟩ := hd
    simp only [List.map_cons, dictGet]
    by_cases hk : k = q
    · rw [if_pos hk, if_pos hk]
      subst hk
      rfl
    · rw [if_neg hk, if_neg hk]
      exact ih q

theorem build_keys_nodup (wl : List (String × List String)) :
    ∀ (restocked : List RestockItem) (acc : List (String × List RestockItem)),
      (acc.map Prod.fst).Nodup →
      ((buildUserNotifications wl restocked acc).map Prod.fst).Nodup := by
  intro restocked
  induction restocked with
  | nil => intro acc h; exact h
  | cons p rest ih =>
    intro acc h
    simp only [buildUserNotifications]
    cases hwl : dictGet wl p.id with
    | none => exact ih acc h
    | some us => exact ih _ (foldUsers_keys_nodup p us acc h)

theorem build_products (wl : List (String × List String)) :
    ∀ (restocked : List RestockItem) (acc : List (String × List RestockItem)),
      ∀ x ∈ buildUserNotifications wl restocked acc, ∀ q ∈ x.2,
        (∃ y ∈ acc, q ∈ y.2) ∨ q ∈ restocked := by
  intro restocked
  induction restocked with
  | nil => intro acc x hx q hq; exact Or.inl ⟨x, hx, hq⟩
  | cons p rest ih =>
    intro acc x hx q hq
    simp only [buildUserNotifications] at hx
    cases hwl : dictGet wl p.id with
    | none =>
      rw [hwl] at hx
      rcases ih acc x hx q hq with hl | hr
      · exact Or.inl hl
      · exact Or.inr (List.mem_cons_of_mem _ hr)
    | some us =>
      rw [hwl] at hx
      rcases ih _ x hx q hq with ⟨y, hy, hqy⟩ | hr
      · rcases foldUsers_products p us acc y hy q hqy with hl | rfl
        · exact Or.inl hl
        · exact Or.inr (List.mem_cons_self _ _)
      · exact Or.inr (List.mem_cons_of_mem _ hr)

theorem build_get (wl : List (String × List String))
    (hnd : ∀ e ∈ wl, List.Nodup e.2)
    (hdot : ∀ e ∈ wl, ∀ k ∈ e.2, ∀ c ∈ k.data, c ≠ '.') :
    ∀ (restocked : List RestockItem) (acc : List (String × List RestockItem))
      (u : String), (∀ c ∈ u.data, c ≠ '.') →
      dictGet (buildUserNotifications wl restocked acc) (decodeEmailKey u) =
        match dictGet acc (decodeEmailKey u) with
        | some xs => some (xs ++ restocked.filter (waitlisted wl u))
        | none =>
          if restocked.filter (waitlisted wl u) = [] then none
          else some (restocked.filter (waitlisted wl u)) := by
  intro restocked
  induction restocked with
  | nil =>
    intro acc u _
    cases hacc : dictGet acc (decodeEmailKey u) with
    | none => simp [buildUserNotifications, hacc]
    | some xs => simp [buildUserNotifications, hacc]
  | cons p rest ih =>
    intro acc u hu
    simp only [buildUserNotifications]
    cases hwl : dictGet wl p.id with
    | none =>
      have hwf : waitlisted wl u p = false := by simp [waitlisted, hwl]
      rw [ih acc u hu]
      simp only [List.filter_cons, hwf]
      rfl
    | some us =>
      have hmemwl : (p.id, us) ∈ wl := dictGet_mem wl p.id us hwl
      have husnd : us.Nodup := hnd (p.id, us) hmemwl
      have husdot : ∀ k ∈ us, ∀ c ∈ k.data, c ≠ '.' :=
        fun k hk => hdot (p.id, us) hmemwl k hk
      rw [ih _ u hu]
      rw [foldUsers_get p us acc u husnd hu husdot]
      have hwmem : waitlisted wl u p = decide (u ∈ us) := by
        simp [waitlisted, hwl]
      by_cases hmem : u ∈ us
      · have hwt : waitlisted wl u p = true := by simp [hwmem, hmem]
        rw [if_pos hmem]
        simp only [List.filter_cons, hwt, if_true]
        cases hacc : dictGet acc (decodeEmailKey u) with
        | none => simp
        | some xs => simp
      · have hwf : waitlisted wl u p = false := by simp [hwmem, hmem]
        rw [if_neg hmem]
        simp only [List.filter_cons, hwf]
        rfl

/-- Each recipient appears at most once in the batch emails of any
completed dispatch. -/
theorem hsn_recipients_nodup (st : DBState) (restocked : List RestockItem)
    (emails : List (String × String × List RestockItem)) (st2 : DBState)
    (hrun : handle_stock_notifications st restocked = some (emails, st2)) :
    (emails.map Prod.fst).Nodup := by
  by_cases hwl0 : st.stock_notifications = []
  · have hr : handle_stock_notifications st restocked = some ([], st) := by
      simp [handle_stock_notifications, hwl0]
    rw [hr] at hrun
    injection hrun with hpair
    injection hpair with h1 h2
    subst h1
    simp
  · by_cases hun : buildUserNotifications st.stock_notifications restocked [] = []
    · have hr : handle_stock_notifications st restocked = some ([], st) := by
        simp [handle_stock_notifications, if_neg hwl0, hun]
      rw [hr] at hrun
      injection hrun with hpair
      injection hpair with h1 h2
      subst h1
      simp
    · by_cases husers : st.users = []
      · have hr : handle_stock_notifications st restocked = none := by
          simp [handle_stock_notifications, if_neg hwl0, if_neg hun, husers]
        rw [hr] at hrun
        exact Option.noConfusion hrun
      · simp only [handle_stock_notifications, if_neg hwl0, if_neg hun,
          if_neg husers] at hrun
        injection hrun with hpair
        injection hpair with h1 h2
        subst h1
        rw [List.map_map]
        exact build_keys_nodup st.stock_notifications restocked [] (by simp)

/-- In a completed dispatch, an interested user's email lists exactly
their restocked products, in restock order. -/
theorem hsn_email_content (st : DBState) (restocked : List RestockItem)
    (u : String) (p : RestockItem)
    (emails : List (String × String × List RestockItem)) (st2 : DBState)
    (hnd : ∀ e ∈ st.stock_notifications, List.Nodup e.2)
    (hdot : ∀ e ∈ st.stock_notifications, ∀ k ∈ e.2, ∀ c ∈ k.data, c ≠ '.')
    (hrun : handle_stock_notifications st restocked = some (emails, st2))
    (hp : p ∈ restocked) (hw : waitlisted st.stock_notifications u p = true)
    (hu : ∀ c ∈ u.data, c ≠ '.') :
    dictGet (emails.map (fun x => (x.1, x.2.2))) (decodeEmailKey u) =
      some (restocked.filter (waitlisted st.stock_notifications u)) := by
  have hfil : p ∈ restocked.filter (waitlisted st.stock_notifications u) :=
    List.mem_filter.mpr ⟨hp, hw⟩
  have hne : restocked.filter (waitlisted st.stock_notifications u) ≠ [] := by
    intro hc
    rw [hc] at hfil
    exact absurd hfil (List.not_mem_nil p)
  by_cases hwl0 : st.stock_notifications = []
  · exfalso
    rw [hwl0] at hw
    simp [waitlisted, dictGet] at hw
  · have hg := build_get st.stock_notifications hnd hdot restocked [] u hu
    by_cases hun : buildUserNotifications st.stock_notifications restocked [] = []
    · exfalso
      rw [hun] at hg
      have hg2 : (none : Option (List RestockItem)) =
          if restocked.filter (waitlisted st.stock_notifications u) = [] then none
          else some (restocked.filter (waitlisted st.stock_notifications u)) := hg
      rw [if_neg hne] at hg2
      exact Option.noConfusion hg2
    · by_cases husers : st.users = []
      · exfalso
        have hr : handle_stock_notifications st restocked = none := by
          simp [handle_stock_notifications, if_neg hwl0, if_neg hun, husers]
        rw [hr] at hrun
        exact Option.noConfusion hrun
      · simp only [handle_stock_notifications, if_neg hwl0, if_neg hun,
          if_neg husers] at hrun
        injection hrun with hpair
        injection hpair with h1 h2
        subst h1
        rw [List.map_map]
        have hid : (buildUserNotifications st.stock_notifications restocked []).map
            ((fun x : String × String × List RestockItem => (x.1, x.2.2)) ∘
              (fun x : String × List RestockItem =>
                (x.1, ((dictGet st.users (encodeEmailKey x.1)).bind
                  (fun u2 => u2.name)).getD "Valued Customer", x.2))) =
            buildUserNotifications st.stock_notifications restocked [] := by
          have h1 : ∀ x ∈ buildUserNotifications st.stock_notifications restocked [],
              ((fun x : String × String × List RestockItem => (x.1, x.2.2)) ∘
                (fun x : String × List RestockItem =>
                  (x.1, ((dictGet st.users (encodeEmailKey x.1)).bind
                    (fun u2 => u2.name)).getD "Valued Customer", x.2))) x = id x :=
            fun x _ => rfl
          rw [List.map_congr_left h1, List.map_id]
        rw [hid, hg]
        show (if restocked.filter (waitlisted st.stock_notifications u) = [] then none
          else some (restocked.filter (waitlisted st.stock_notifications u))) =
          some (restocked.filter (waitlisted st.stock_notifications u))
        rw [if_neg hne]

/-- In a completed dispatch, every waitlist entry of a restocked product
that had a waitlist node is deleted. -/
theorem hsn_deleted (st : DBState) (restocked : List RestockItem)
    (emails : List (String × String × List RestockItem)) (st2 : DBState)
    (hnd : ∀ e ∈ st.stock_notifications, List.Nodup e.2)
    (hdot : ∀ e ∈ st.stock_notifications, ∀ k ∈ e.2, ∀ c ∈ k.data, c ≠ '.')
    (hrun : handle_stock_notifications st restocked = some (emails, st2))
    (p : RestockItem) (hp : p ∈ restocked)
    (us : List String) (hus : dictGet st.stock_notifications p.id = some us) :
    dictGet st2.stock_notifications p.id = some [] := by
  by_cases hwl0 : st.stock_notifications = []
  · rw [hwl0] at hus
    exact absurd hus (by simp [dictGet])
  · by_cases hun : buildUserNotifications st.stock_notifications restocked [] = []
    · have husnil : us = [] := by
        by_contra hcne
        obtain ⟨k, hk⟩ := List.exists_mem_of_ne_nil us hcne
        have hkmem := dictGet_mem st.stock_notifications p.id us hus
        have hkdot := hdot (p.id, us) hkmem k hk
        have hw : waitlisted st.stock_notifications k p = true := by
          simp [waitlisted, hus, hk]
        have hfil : p ∈ restocked.filter (waitlisted st.stock_notifications k) :=
          List.mem_filter.mpr ⟨hp, hw⟩
        have hne2 : restocked.filter (waitlisted st.stock_notifications k) ≠ [] := by
          intro hc
          rw [hc] at hfil
          exact absurd hfil (List.not_mem_nil p)
        have hg := build_get st.stock_notifications hnd hdot restocked [] k hkdot
        rw [hun] at hg
        have hg2 : (none : Option (List RestockItem)) =
            if restocked.filter (waitlisted st.stock_notifications k) = [] then none
            else some (restocked.filter (waitlisted st.stock_notifications k)) := hg
        rw [if_neg hne2] at hg2
        exact Option.noConfusion hg2
      subst husnil
      have hr : handle_stock_notifications st restocked = some ([], st) := by
        simp [handle_stock_notifications, if_neg hwl0, hun]
      rw [hr] at hrun
      injection hrun with hpair
      injection hpair with h1 h2
      subst h2
      exact hus
    · by_cases husers : st.users = []
      · exfalso
        have hr : handle_stock_notifications st restocked = none := by
          simp [handle_stock_notifications, if_neg hwl0, if_neg hun, husers]
        rw [hr] at hrun
        exact Option.noConfusion hrun
      · simp only [handle_stock_notifications, if_neg hwl0, if_neg hun,
          if_neg husers] at hrun
        injection hrun with hpair
        injection hpair with h1 h2
        subst h2
        rw [dictGet_map_filter ((buildUserNotifications st.stock_notifications
          restocked []).flatMap (fun x => x.2.map (fun p2 =>
            (p2.id, encodeEmailKey x.1)))) st.stock_notifications p.id]
        rw [hus]
        refine congrArg some ?_
        rw [List.filter_eq_nil_iff]
        intro k hk
        have hkmem := dictGet_mem st.stock_notifications p.id us hus
        have hkdot := hdot (p.id, us) hkmem k hk
        have hw : waitlisted st.stock_notifications k p = true := by
          simp [waitlisted, hus, hk]
        have hfil : p ∈ restocked.filter (waitlisted st.stock_notifications k) :=
          List.mem_filter.mpr ⟨hp, hw⟩
        have hne2 : restocked.filter (waitlisted st.stock_notifications k) ≠ [] := by
          intro hc
          rw [hc] at hfil
          exact absurd hfil (List.not_mem_nil p)
        have hg := build_get st.stock_notifications hnd hdot restocked [] k hkdot
        have hg2 : dictGet (buildUserNotifications st.stock_notifications restocked [])
            (decodeEmailKey k) =
            if restocked.filter (waitlisted st.stock_notifications k) = [] then none
            else some (restocked.filter (waitlisted st.stock_notifications k)) := hg
        rw [if_neg hne2] at hg2
        have hpair2 := dictGet_mem _ _ _ hg2
        have hin : (p.id, k) ∈ (buildUserNotifications st.stock_notifications
            restocked []).flatMap (fun x => x.2.map (fun p2 =>
              (p2.id, encodeEmailKey x.1))) := by
          refine List.mem_flatMap.mpr ⟨(decodeEmailKey k,
            restocked.filter (waitlisted st.stock_notifications k)), hpair2, ?_⟩
          refine List.mem_map.mpr ⟨p, hfil, ?_⟩
          rw [encode_decode_key k hkdot]
        simp [hin]

/-- In a completed dispatch, waitlists of products that were not restocked
are unchanged. -/
theorem hsn_untouched (st : DBState) (restocked : List RestockItem)
    (emails : List (String × String × List RestockItem)) (st2 : DBState)
    (hrun : handle_stock_notifications st restocked = some (emails, st2))
    (q : String) (hq : ∀ p ∈ restocked, p.id ≠ q) :
    dictGet st2.stock_notifications q = dictGet st.stock_notifications q := by
  by_cases hwl0 : st.stock_notifications = []
  · have hr : handle_stock_notifications st restocked = some ([], st) := by
      simp [handle_stock_notifications, hwl0]
    rw [hr] at hrun
    injection hrun with hpair
    injection hpair with h1 h2
    subst h2
    rfl
  · by_cases hun : buildUserNotifications st.stock_notifications restocked [] = []
    · have hr : handle_stock_notifications st restocked = some ([], st) := by
        simp [handle_stock_notifications, if_neg hwl0, hun]
      rw [hr] at hrun
      injection hrun with hpair
      injection hpair with h1 h2
      subst h2
      rfl
    · by_cases husers : st.users = []
      · exfalso
        have hr : handle_stock_notifications st restocked = none := by
          simp [handle_stock_notifications, if_neg hwl0, if_neg hun, husers]
        rw [hr] at hrun
        exact Option.noConfusion hrun
      · simp only [handle_stock_notifications, if_neg hwl0, if_neg hun,
          if_neg husers] at hrun
        injection hrun with hpair
        injection hpair with h1 h2
        subst h2
        rw [dictGet_map_filter ((buildUserNotifications st.stock_notifications
          restocked []).flatMap (fun x => x.2.map (fun p2 =>
            (p2.id, encodeEmailKey x.1)))) st.stock_notifications q]
        cases hgq : dictGet st.stock_notifications q with
        | none => rfl
        | some us =>
          refine congrArg some ?_
          rw [List.filter_eq_self]
          intro k hk
          have hnotin : (q, k) ∉ (buildUserNotifications st.stock_notifications
              restocked []).flatMap (fun x => x.2.map (fun p2 =>
                (p2.id, encodeEmailKey x.1))) := by
            intro hin
            obtain ⟨x, hx, hin2⟩ := List.mem_flatMap.mp hin
            obtain ⟨p2, hp2, heq⟩ := List.mem_map.mp hin2
            have hq2 : p2.id = q := congrArg Prod.fst heq
            have hp2r : p2 ∈ restocked := by
              rcases build_products st.stock_notifications restocked [] x hx p2 hp2
                with ⟨y, hy, _⟩ | hr
              · exact absurd hy (List.not_mem_nil y)
              · exact hr
            exact hq p2 hp2r hq2
          simp [hnotin]

/-- When the users tree is present, the dispatcher completes (only the
absent-tree corner crashes). -/
theorem hsn_total (st : DBState) (restocked : List RestockItem)
    (husers : st.users ≠ []) :
    ∃ r, handle_stock_notifications st restocked = some r := by
  by_cases hwl0 : st.stock_notifications = []
  · exact ⟨([], st), by simp [handle_stock_notifications, hwl0]⟩
  · by_cases hun : buildUserNotifications st.stock_notifications restocked [] = []
    · exact ⟨([], st), by simp [handle_stock_notifications, if_neg hwl0, hun]⟩
    · cases hres : handle_stock_notifications st restocked with
      | some r => exact ⟨r, rfl⟩
      | none =>
        exfalso
        simp only [handle_stock_notifications, if_neg hwl0, if_neg hun,
          if_neg husers] at hres
        exact Option.noConfusion hres

/-- C9 counterexample: the claim fails on the code at the corner the
original claim quantifies over — users tree absent (`users = []`, which
Firebase reads back as `None`) while `alice@example_com` is on the
restocked product's waitlist.  Line 1072 then raises `AttributeError`
(`.get` on `None`) before any send or delete, modelled by the dispatcher
returning `none`: no email is sent to the interested user and the waitlist
entry is not deleted, contradicting the claimed "sends … then deletes". -/
theorem handle_stock_notifications_crash_counterexample :
    handle_stock_notifications
      { users := [], stockitems := [], order_ids := [], invoice_ids := [],
        return_ids := [],
        stock_notifications := [("item008", ["alice@example_com"])] }
      [{ id := "item008", name := "Lamp" }] = none ∧
    waitlisted [("item008", ["alice@example_com"])] "alice@example_com"
      { id := "item008", name := "Lamp" } = true := by decide

/-- C9 (amended): on every completed dispatch — and dispatch completes
whenever the users tree is present; with the tree absent and a non-empty
batch it instead crashes before sending or deleting anything — each
interested user receives exactly one batched email (recipients pairwise
distinct) listing all of that user's restocked products, and the one
multi-path update deletes every (product, user) waitlist entry of the
restocked products that were processed (their waitlists end empty) while
waitlists of other products are unchanged.  The hypotheses state Firebase
key facts: per-product waitlist keys are unique and contain no '.'. -/
theorem handle_stock_notifications_spec
    (st : DBState) (restocked : List RestockItem)
    (hnd : ∀ e ∈ st.stock_notifications, List.Nodup e.2)
    (hdot : ∀ e ∈ st.stock_notifications, ∀ k ∈ e.2, ∀ c ∈ k.data, c ≠ '.') :
    (∀ emails st2,
      handle_stock_notifications st restocked = some (emails, st2) →
      (emails.map Prod.fst).Nodup ∧
      (∀ u p, p ∈ restocked → waitlisted st.stock_notifications u p = true →
        (∀ c ∈ u.data, c ≠ '.') →
        dictGet (emails.map (fun x => (x.1, x.2.2))) (decodeEmailKey u) =
          some (restocked.filter (waitlisted st.stock_notifications u))) ∧
      (∀ p ∈ restocked, ∀ us, dictGet st.stock_notifications p.id = some us →
        dictGet st2.stock_notifications p.id = some []) ∧
      (∀ q, (∀ p ∈ restocked, p.id ≠ q) →
        dictGet st2.stock_notifications q = dictGet st.stock_notifications q)) ∧
    (st.users ≠ [] → ∃ r, handle_stock_notifications st restocked = some r) :=
  ⟨fun emails st2 hrun =>
    ⟨hsn_recipients_nodup st restocked emails st2 hrun,
     fun u p hp hw hu =>
       hsn_email_content st restocked u p emails st2 hnd hdot hrun hp hw hu,
     fun p hp us hus =>
       hsn_deleted st restocked emails st2 hnd hdot hrun p hp us hus,
     fun q hq => hsn_untouched st restocked emails st2 hrun q hq⟩,
   fun husers => hsn_total st restocked husers⟩

/-- Dispatch fixture mirroring the spec's scenario with alice registered:
product `item008` restocked with waitlist `{alice's key}`. -/
def exAliceUser : User :=
  { name := some "Alice", cart_items := [], orders := none,
    shipping_addresses := [], order_history := [] }

def exNotifState : DBState :=
  { users := [("alice@example_com", exAliceUser)], stockitems := [],
    order_ids := [], invoice_ids := [], return_ids := [],
    stock_notifications := [("item008", ["alice@example_com"])] }

def exRestock : List RestockItem := [{ id := "item008", name := "Lamp" }]

/-- The completed dispatch on `exNotifState`: one email to alice listing
`item008`, and `item008`'s waitlist emptied. -/
def exDispatchEmails : List (String × String × List RestockItem) :=
  [("alice@example.com", "Alice", [{ id := "item008", name := "Lamp" }])]

def exDispatchState : DBState :=
  { exNotifState with stock_notifications := [("item008", [])] }

/-- C9 witness: the spec scenario with alice registered — the dispatch
completes with one email to alice listing `item008`, and `item008`'s
waitlist is empty afterwards while `item009` is untouched. -/
theorem handle_stock_notifications_spec_witness :
    (exDispatchEmails.map Prod.fst).Nodup ∧
    dictGet (exDispatchEmails.map (fun x => (x.1, x.2.2)))
        (decodeEmailKey "alice@example_com") =
      some (exRestock.filter (waitlisted exNotifState.stock_notifications
        "alice@example_com")) ∧
    dictGet exDispatchState.stock_notifications "item008" = some [] ∧
    dictGet exDispatchState.stock_notifications "item009" =
      dictGet exNotifState.stock_notifications "item009" :=
  have h := (handle_stock_notifications_spec exNotifState exRestock
    (by decide) (by decide)).1 exDispatchEmails exDispatchState (by decide)
  ⟨h.1,
   h.2.1 "alice@example_com" { id := "item008", name := "Lamp" }
     (by decide) (by decide) (by decide),
   h.2.2.1 { id := "item008", name := "Lamp" } (by decide)
     ["alice@example_com"] (by decide),
   h.2.2.2 "item009" (by decide)⟩
